import Mathlib

/-!
# Verification of the topview parm7 core

Shallow embedding of the topview repository's parm7 parsing, derived-table
and selection/highlight core (`topview/services/parm7.py`,
`topview/services/system_info.py`, `topview/services/system_info_selection.py`,
`topview/services/lj.py`, `topview/model/highlights.py`), together with
theorems settling the specification claims about it.

Modelling conventions:
* Python ints are `Int`; non-negative counts are `Nat`.
* Python floats are modelled as real numbers (`ℝ`) where the claim is about
  the numeric formulas, and as rationals (`ℚ`) where values are only stored
  and compared.
* Python functions that raise are `Except`-valued; the exception class names
  (`ValueError`, spec name `FormatError`) are abstracted into the error type.
* Python's builtin string-to-number conversions (`int(...)`, `float(...)`)
  are external to the repository and are passed in as abstract partial
  parsing primitives.
-/

namespace Topview

/-- Model of `Parm7Token` (`topview/model/state.py`): a fixed-width slice of
one source line. The column past the end is named `endCol` (`end` in the
source, which is a Lean keyword). -/
structure Parm7Token where
  value : String
  line : Nat
  start : Nat
  endCol : Nat
deriving DecidableEq, Repr

/-- Model of `Parm7Section` (`topview/model/state.py`). -/
structure Parm7Section where
  name : String
  count : Nat
  width : Nat
  flag_line : Nat
  end_line : Nat
  tokens : List Parm7Token
deriving DecidableEq, Repr

/-- The sections map produced by the tokenizer, keyed by flag name
(keys unique by construction in `parse_parm7`). -/
abbrev Sections := List (String × Parm7Section)

/-- Python `sections.get(name)`: first binding for `name`, if any. -/
def getSection (sections : Sections) (name : String) : Option Parm7Section :=
  (sections.find? (fun p => p.1 = name)).map (fun p => p.2)

/-- The `POINTER_NAMES` list from `topview/services/parm7.py`: the fixed ordered list
of pointer names (32 entries; the last, `NCOPY`, is optional). -/
def POINTER_NAMES : List String :=
  ["NATOM", "NTYPES", "NBONH", "MBONA", "NTHETH", "MTHETA", "NPHIH", "MPHIA",
   "NHPARM", "NPARM", "NNB", "NRES", "NBONA", "NTHETA", "NPHIA", "NUMBND",
   "NUMANG", "NPTRA", "NATYP", "NPHB", "IFPERT", "NBPER", "NGPER", "NDPER",
   "MBPER", "MGPER", "MDPER", "IFBOX", "NMXRS", "IFCAP", "NUMEXTRA", "NCOPY"]

/-- Model of `parse_pointers` (`topview/services/parm7.py`, lines 240-266),
taking the list of integer values decoded from the `POINTERS` section's token
text (the `np.fromstring` result).  It fails when the number of decoded
values is neither 31 nor 32, and otherwise pairs the values with the pointer
names in order.  No sign check is performed here. -/
def parse_pointers (values : List Int) : Except String (List (String × Int)) :=
  if values.length = 31 ∨ values.length = 32 then
    Except.ok (List.zip (POINTER_NAMES.take values.length) values)
  else
    Except.error "POINTERS section length does not match expected 31 or 32 values"

/-- Python `pointers.get(name, 0)`: dictionary read with default 0, as used by
`_pointer_value`. -/
def pointersGet (pointers : List (String × Int)) (name : String) : Int :=
  match pointers.find? (fun p => p.1 = name) with
  | some p => p.2
  | none => 0

/-- Model of `_pointer_value` (`topview/services/system_info.py` lines
215-220 and `topview/services/system_info_selection.py` lines 134-138):
reading one pointer fails exactly when its value is negative. -/
def pointer_value (pointers : List (String × Int)) (name : String) :
    Except String Int :=
  let value := pointersGet pointers name
  if value < 0 then
    Except.error ("POINTERS " ++ name ++ " value is negative")
  else
    Except.ok value

/-- Serial decoding `abs(value) // 3 + 1`: `_pointer_to_serial` as it appears in
`system_info.py`, `system_info_selection.py` and `highlights.py`. -/
def pointer_to_serial (value : Int) : Int :=
  (value.natAbs : Int) / 3 + 1

/-- Records of three consecutive values (`range(0, len(values) - 2, 3)` in
the source loops): complete triples only, a trailing partial group is
dropped. -/
def chunks3 : List Int → List (Int × Int × Int)
  | a :: b :: c :: rest => (a, b, c) :: chunks3 rest
  | _ => []

/-- Records of four consecutive values (`range(0, len(values) - 3, 4)`). -/
def chunks4 : List Int → List (Int × Int × Int × Int)
  | a :: b :: c :: d :: rest => (a, b, c, d) :: chunks4 rest
  | _ => []

/-- Records of five consecutive values (`range(0, len(values) - 4, 5)`). -/
def chunks5 : List Int → List (Int × Int × Int × Int × Int)
  | a :: b :: c :: d :: e :: rest => (a, b, c, d, e) :: chunks5 rest
  | _ => []

/-- Model of `_sorted_pair` (`system_info.py` line 1156, `system_info_selection.py`
line 278). -/
def sorted_pair (a b : Int) : Int × Int :=
  if a ≤ b then (a, b) else (b, a)

/-- Model of `nonbonded_pair_total` (`system_info_selection.py` lines
99-109): `n*(n-1)//2` for the same-type case, `n_a*n_b` otherwise. -/
def nonbonded_pair_total (serials_a serials_b : List Int) (same_type : Bool) :
    Nat :=
  if same_type then
    let count := serials_a.length
    count * (count - 1) / 2
  else
    serials_a.length * serials_b.length

/-- The loop of `_combination_pair_index` (`system_info_selection.py` lines
286-290): `for i in range(count - 1)` with `span = count - i - 1`, returning
`(i, i + 1 + remaining)` once `remaining < span`, else falling through to
the out-of-range error.  The loop is re-indexed structurally by `span`,
which counts down `count - 1, count - 2, ..., 1` as `i` counts up; the loop
exhausts exactly when `span` reaches 0. -/
def combLoop : Nat → Nat → Nat → Except String (Nat × Nat)
  | 0, _, _ => Except.error "Index out of range for combination pairs"
  | span + 1, i, remaining =>
    if remaining < span + 1 then
      Except.ok (i, i + 1 + remaining)
    else
      combLoop span (i + 1) (remaining - (span + 1))

/-- Model of `_combination_pair_index` (`system_info_selection.py` lines
282-291). -/
def combination_pair_index (count idx : Nat) : Except String (Nat × Nat) :=
  if count < 2 then
    Except.error "Need at least two atoms to form a pair"
  else
    combLoop (count - 1) 0 idx

/-- Model of `nonbonded_pair_for_cursor` (`system_info_selection.py` lines
112-131).  Python's `%` with a positive modulus agrees with `Int.emod`.
List indexing is made explicit with `get?`; the source would raise
`IndexError` out of range (provably unreachable for `ok` results of the
closed-form mapping). -/
def nonbonded_pair_for_cursor (serials_a serials_b : List Int) (cursor : Int)
    (same_type : Bool) : Except String (Int × Int) :=
  let total := nonbonded_pair_total serials_a serials_b same_type
  if total = 0 then
    Except.error "No nonbonded pairs available"
  else
    let idx := (cursor % (total : Int)).toNat
    if same_type then
      match combination_pair_index serials_a.length idx with
      | Except.error e => Except.error e
      | Except.ok (i, j) =>
        match serials_a.get? i, serials_a.get? j with
        | some x, some y => Except.ok (x, y)
        | _, _ => Except.error "serial index out of range"
    else
      if serials_a.isEmpty ∨ serials_b.isEmpty then
        Except.error "No nonbonded pairs available"
      else
        let j := idx % serials_b.length
        let i := idx / serials_b.length
        match serials_a.get? i, serials_b.get? j with
        | some x, some y => Except.ok (x, y)
        | _, _ => Except.error "serial index out of range"

/-- The combination pairs the cursor mapping enumerates, materialized: row
`i` (with `span` values remaining) is `[(i, i+1), ..., (i, i+span)]`,
followed by the later rows. -/
def pairsFrom : Nat → Nat → List (Nat × Nat)
  | 0, _ => []
  | span + 1, i =>
    (List.range (span + 1)).map (fun t => (i, i + 1 + t)) ++ pairsFrom span (i + 1)

/-- All combination pairs `(i, j)` with `i < j < count` in the cursor
enumeration order. -/
def allPairs (count : Nat) : List (Nat × Nat) :=
  pairsFrom (count - 1) 0

/-- Model of `parse_int_tokens` (`topview/services/parm7.py` lines 269-296).
Python's builtin `int(raw)` and the fallback `int(float(raw))` are external
conversions, passed in as the partial parsers `pint` and `pfloatInt`
(`none` models the conversion raising `ValueError`).  Blank or unparseable
tokens decode to `0`; the function is total and yields one value per
token. -/
def parse_int_tokens (pint pfloatInt : String → Option Int)
    (tokens : List Parm7Token) : List Int :=
  tokens.map (fun token =>
    let raw := token.value.trim
    if raw = "" then 0
    else
      match pint raw with
      | some v => v
      | none =>
        match pfloatInt raw with
        | some v => v
        | none => 0)

/-- Model of `parse_float_tokens` (`topview/services/parm7.py` lines
299-324).  Fortran `D` exponents are rewritten to `E` before the builtin
`float(raw)` conversion, passed in as the partial parser `pfloat` over an
arbitrary value type `α` with a designated zero substitute. -/
def parse_float_tokens {α : Type} (pfloat : String → Option α) (zero : α)
    (tokens : List Parm7Token) : List α :=
  tokens.map (fun token =>
    let raw := token.value.trim
    if raw = "" then zero
    else
      let rewritten := (raw.replace "D" "E").replace "d" "e"
      match pfloat rewritten with
      | some v => v
      | none => zero)

/-- Structured form of the `ValueError` messages raised by the section
parsers (the spec's `FormatError` taxonomy): each failure names the section,
and a count failure carries the expected and actual counts. -/
inductive SectionError where
  | missing (name : String)
  | lengthMismatch (name : String) (expected actual : Nat)
  | parsedMismatch (name : String) (expected parsed : Nat)
deriving DecidableEq, Repr

/-- The section name every section-parser failure carries. -/
def SectionError.sectionName : SectionError → String
  | SectionError.missing n => n
  | SectionError.lengthMismatch n _ _ => n
  | SectionError.parsedMismatch n _ _ => n

/-- The exact `ValueError` message text the source builds for each failure
(`system_info_selection.py` lines 147-157, `system_info.py` lines 236-271):
only the count-mismatch messages mention the expected and actual counts;
the missing-section message carries the name alone. -/
def sectionErrorMessage : SectionError → String
  | SectionError.missing n => n ++ " section missing"
  | SectionError.lengthMismatch n expected actual =>
      n ++ " length " ++ toString actual ++ " does not match expected " ++
        toString expected
  | SectionError.parsedMismatch n expected parsed =>
      n ++ " parsed " ++ toString parsed ++ " values but expected " ++
        toString expected

/-- Model of `_parse_int_section` (`topview/services/system_info_selection.py`
lines 141-158): a mandatory integer section must be present with exactly
`expected` tokens (and must be absent or empty when `expected = 0`);
otherwise the tokens are decoded with `parse_int_tokens`. -/
def parse_int_section_sel (pint pfloatInt : String → Option Int)
    (sections : Sections) (name : String) (expected : Nat) :
    Except SectionError (List Int) :=
  if expected = 0 then
    match getSection sections name with
    | some s =>
      if s.tokens.isEmpty then Except.ok []
      else Except.error (SectionError.lengthMismatch name expected s.tokens.length)
    | none => Except.ok []
  else
    match getSection sections name with
    | none => Except.error (SectionError.missing name)
    | some s =>
      if s.tokens.isEmpty then Except.error (SectionError.missing name)
      else if s.tokens.length ≠ expected then
        Except.error (SectionError.lengthMismatch name expected s.tokens.length)
      else Except.ok (parse_int_tokens pint pfloatInt s.tokens)

/-- Model of `_parse_int_section` (`topview/services/system_info.py` lines
223-273).  Same length contract as the selection-index copy, but the values
are decoded by `np.fromstring` over the space-joined token text (abstracted
as `npDecode`) and the count of decoded values is re-checked against
`expected`. -/
def parse_int_section_si (npDecode : List String → List Int)
    (sections : Sections) (name : String) (expected : Nat) :
    Except SectionError (List Int) :=
  if expected = 0 then
    match getSection sections name with
    | some s =>
      if s.tokens.isEmpty then Except.ok []
      else Except.error (SectionError.lengthMismatch name expected s.tokens.length)
    | none => Except.ok []
  else
    match getSection sections name with
    | none => Except.error (SectionError.missing name)
    | some s =>
      if s.tokens.isEmpty then Except.error (SectionError.missing name)
      else if s.tokens.length ≠ expected then
        Except.error (SectionError.lengthMismatch name expected s.tokens.length)
      else
        let values := npDecode (s.tokens.map (fun t => t.value))
        if values.length ≠ expected then
          Except.error (SectionError.parsedMismatch name expected values.length)
        else Except.ok values

/-- The actual token count of a named section; a missing section counts as
zero tokens. -/
def section_token_count (sections : Sections) (name : String) : Nat :=
  match getSection sections name with
  | some s => s.tokens.length
  | none => 0

/-- The floor `LJ_MIN_COEF = 1.0e-10` (`topview/services/lj.py` line 13,
`system_info.py` line 18): numerical floor below which Lennard-Jones
coefficients are treated as zero. -/
noncomputable def LJ_MIN_COEF : ℝ := 1 / 10 ^ (10 : ℕ)

/-- The Lennard-Jones radius/well-depth formula shared by
`build_lj_by_type` (`lj.py` lines 149-152) and `_build_atom_type_table`
(`system_info.py` lines 444-448), over real numbers: outside the floor the
entry keeps the zero defaults, otherwise `factor = 2*acoef/bcoef`,
`rmin = factor^(1/6) * 0.5` and `epsilon = bcoef / 2 / factor`. -/
noncomputable def lj_rmin_epsilon (acoef bcoef : ℝ) : ℝ × ℝ :=
  if LJ_MIN_COEF ≤ acoef ∧ LJ_MIN_COEF ≤ bcoef then
    let factor := 2 * acoef / bcoef
    (factor ^ ((1 : ℝ) / 6) * 0.5, bcoef / 2 / factor)
  else (0, 0)

/-- One entry of the `lj_by_type` mapping built by `build_lj_by_type`
(`lj.py` lines 130-136). -/
structure LJEntry where
  rmin : ℝ
  epsilon : ℝ
  acoef : Option ℝ
  bcoef : Option ℝ
  pair_index : Option Int

/-- The `ntypes` determination of `build_lj_by_type` (`lj.py` lines
119-127): the square-matrix root of the `NONBONDED_PARM_INDEX` length when
it is a perfect square (`int(round(math.sqrt(n)))` coincides with
`Nat.sqrt n` under the `matrix_size * matrix_size == n` guard), else the
maximum atom type index, else zero. -/
def lj_ntypes (atom_type_indices nonbond_index : List Int) : Int :=
  let n := nonbond_index.length
  let fromMatrix : Int :=
    if nonbond_index ≠ [] ∧ Nat.sqrt n * Nat.sqrt n = n then (Nat.sqrt n : Int)
    else 0
  if fromMatrix ≠ 0 then fromMatrix
  else
    match atom_type_indices with
    | [] => 0
    | x :: xs => xs.foldl max x

/-- The per-type loop body of `build_lj_by_type` (`lj.py` lines 128-153).
The diagonal offset is in range `[0, ntypes^2)` for the loop's
`type_index ∈ [1, ntypes]`, so the `getD` defaults are unreachable there. -/
noncomputable def lj_entry_for_type (nonbond_index : List Int)
    (acoef_values bcoef_values : List ℝ) (ntypes type_index : Int) : LJEntry :=
  let offset := (type_index - 1) * ntypes + (type_index - 1)
  if offset < (nonbond_index.length : Int) then
    let pair_index := nonbond_index.getD offset.toNat 0
    let entry0 : LJEntry :=
      { rmin := 0, epsilon := 0, acoef := none, bcoef := none,
        pair_index := some pair_index }
    if 0 < pair_index then
      let pair_offset := (pair_index - 1).toNat
      if pair_offset < acoef_values.length ∧ pair_offset < bcoef_values.length then
        let acoef := acoef_values.getD pair_offset 0
        let bcoef := bcoef_values.getD pair_offset 0
        let re := lj_rmin_epsilon acoef bcoef
        { rmin := re.1, epsilon := re.2, acoef := some acoef,
          bcoef := some bcoef, pair_index := some pair_index }
      else entry0
    else entry0
  else
    { rmin := 0, epsilon := 0, acoef := none, bcoef := none, pair_index := none }

/-- Model of `build_lj_by_type` (`topview/services/lj.py` lines 93-154):
diagonal Lennard-Jones parameters per atom type index `1..ntypes`. -/
noncomputable def build_lj_by_type (atom_type_indices nonbond_index : List Int)
    (acoef_values bcoef_values : List ℝ) : List (Int × LJEntry) :=
  let ntypes := lj_ntypes atom_type_indices nonbond_index
  (List.range ntypes.toNat).map (fun k =>
    let type_index : Int := Int.ofNat (k + 1)
    (type_index,
      lj_entry_for_type nonbond_index acoef_values bcoef_values ntypes type_index))

/-- Model of `HighlightEngine._match_triplet` (`topview/model/highlights.py` lines
275-280): exact forward or exact reverse order against the first three
selected serials. -/
def match_triplet (a b c : Int) (serials : List Int) : Bool :=
  if serials.length < 3 then false
  else
    (a == serials.getD 0 0 && b == serials.getD 1 0 && c == serials.getD 2 0) ||
    (a == serials.getD 2 0 && b == serials.getD 1 0 && c == serials.getD 0 0)

/-- Model of `HighlightEngine._match_triplet_unordered` (lines 283-286): sorted-list
(multiset) equality against the first three selected serials. -/
def match_triplet_unordered (a b c : Int) (serials : List Int) : Bool :=
  if serials.length < 3 then false
  else
    ([a, b, c].insertionSort (· ≤ ·)) == ((serials.take 3).insertionSort (· ≤ ·))

/-- Model of `HighlightEngine._match_quad` (lines 289-292): exact forward or exact
reverse order against the first four selected serials. -/
def match_quad (a b c d : Int) (serials : List Int) : Bool :=
  if serials.length < 4 then false
  else serials.take 4 == [a, b, c, d] || serials.take 4 == [d, c, b, a]

/-- Model of `HighlightEngine._match_quad_unordered` (lines 295-300). -/
def match_quad_unordered (a b c d : Int) (serials : List Int) : Bool :=
  if serials.length < 4 then false
  else
    ([a, b, c, d].insertionSort (· ≤ ·)) ==
      ((serials.take 4).insertionSort (· ≤ ·))

/-- Model of `HighlightEngine._get_param_value` (lines 395-409) with the decoded
float list of the named parameter section passed directly (`none` for a
missing section): `none` for a non-positive parameter index, a missing
section, or an out-of-range index. -/
def get_param_value (values : Option (List ℚ)) (param_index : Int) : Option ℚ :=
  if param_index ≤ 0 then none
  else
    match values with
    | none => none
    | some vs => vs.get? (param_index - 1).toNat

/-- One angle interaction record produced by `_extract_angle_params`.  The
`type_indices` field of the source dict (a per-atom metadata lookup) does
not bear on any claim and is omitted. -/
structure AngleParamEntry where
  serials : List Int
  param_index : Int
  force_constant : Option ℚ
  equil_value : Option ℚ
deriving DecidableEq, Repr

/-- One pass of the `_extract_angle_params` loops (lines 484-518 for the
ordered pass, 521-554 for the unordered fallback; the two loop bodies are
identical up to the match predicate, abstracted here as `matchFn`).
`sectionVals` holds the decoded integer values of the present, non-empty
angle sections in source order (absent sections are skipped by the loop's
`continue`). -/
def angle_entries_with (matchFn : Int → Int → Int → List Int → Bool)
    (sectionVals : List (List Int)) (force equil : Option (List ℚ))
    (serials : List Int) : List AngleParamEntry :=
  sectionVals.flatMap (fun values =>
    (chunks4 values).filterMap (fun r =>
      let (ra, rb, rc, rp) := r
      let atom_a := pointer_to_serial ra
      let atom_b := pointer_to_serial rb
      let atom_c := pointer_to_serial rc
      if matchFn atom_a atom_b atom_c serials then
        some { serials := [atom_a, atom_b, atom_c],
               param_index := (rp.natAbs : Int),
               force_constant := get_param_value force (rp.natAbs : Int),
               equil_value := get_param_value equil (rp.natAbs : Int) }
      else none))

/-- Model of `HighlightEngine._extract_angle_params` (lines 477-555): the
ordered pass runs first; the unordered fallback runs only when the ordered
pass matched nothing (`ordered_found or results` in the source, where
`results` is non-empty exactly when `ordered_found` is set). -/
def extract_angle_params (sectionVals : List (List Int))
    (force equil : Option (List ℚ)) (serials : List Int) :
    List AngleParamEntry :=
  if serials.length < 3 then []
  else
    let ordered := angle_entries_with match_triplet sectionVals force equil serials
    if ordered.isEmpty then
      angle_entries_with match_triplet_unordered sectionVals force equil serials
    else ordered

/-- The five dihedral parameter sections consulted by the dihedral and
improper extractors (decoded float lists; `none` for a missing section). -/
structure DihedralFloatParams where
  force : Option (List ℚ)
  periodicity : Option (List ℚ)
  phase : Option (List ℚ)
  scee : Option (List ℚ)
  scnb : Option (List ℚ)
deriving DecidableEq, Repr

/-- One dihedral/improper interaction record produced by
`_extract_dihedral_params` / `_extract_improper_params`. -/
structure DihedralParamEntry where
  serials : List Int
  param_index : Int
  force_constant : Option ℚ
  periodicity : Option ℚ
  phase : Option ℚ
  scee : Option ℚ
  scnb : Option ℚ
deriving DecidableEq, Repr

/-- Shared entry construction of the dihedral extractor loops. -/
def dihedral_entry (ps : DihedralFloatParams) (entrySerials : List Int)
    (param_index : Int) : DihedralParamEntry :=
  { serials := entrySerials,
    param_index := param_index,
    force_constant := get_param_value ps.force param_index,
    periodicity := get_param_value ps.periodicity param_index,
    phase := get_param_value ps.phase param_index,
    scee := get_param_value ps.scee param_index,
    scnb := get_param_value ps.scnb param_index }

/-- One pass of the `_extract_dihedral_params` loops (lines 564-599 ordered,
602-638 unordered fallback; bodies identical up to the match predicate). -/
def dihedral_entries_with (matchFn : Int → Int → Int → Int → List Int → Bool)
    (sectionVals : List (List Int)) (ps : DihedralFloatParams)
    (serials : List Int) : List DihedralParamEntry :=
  sectionVals.flatMap (fun values =>
    (chunks5 values).filterMap (fun r =>
      let (ri, rj, rk, rl, rp) := r
      let atom_i := pointer_to_serial ri
      let atom_j := pointer_to_serial rj
      let atom_k := pointer_to_serial rk
      let atom_l := pointer_to_serial rl
      if matchFn atom_i atom_j atom_k atom_l serials then
        some (dihedral_entry ps [atom_i, atom_j, atom_k, atom_l] (rp.natAbs : Int))
      else none))

/-- Model of `HighlightEngine._extract_dihedral_params` (lines 557-639):
ordered pass first, unordered set-equality fallback only when no record
matched in order. -/
def extract_dihedral_params (sectionVals : List (List Int))
    (ps : DihedralFloatParams) (serials : List Int) : List DihedralParamEntry :=
  if serials.length < 4 then []
  else
    let ordered := dihedral_entries_with match_quad sectionVals ps serials
    if ordered.isEmpty then
      dihedral_entries_with match_quad_unordered sectionVals ps serials
    else ordered

/-- Equality of the two-element Python sets `{a, b}` and `{c, d}`. -/
def set2_eq (a b c d : Int) : Bool :=
  (a == c || a == d) && (b == c || b == d) && (c == a || c == b) &&
    (d == a || d == b)

/-- One 1-4 nonbonded interaction record produced by `_extract_14_params`
(`type_indices` omitted as in `AngleParamEntry`). -/
structure OneFourEntry where
  serials : List Int
  param_index : Int
  scee : Option ℚ
  scnb : Option ℚ
deriving DecidableEq, Repr

/-- Model of `HighlightEngine._extract_14_params` (lines 692-732): a
dihedral record generates a 1-4 pair of its terminal atoms only when
neither its 3rd nor its 4th raw field is negative and the terminal serials
equal the selected pair as a set. -/
def extract_14_params (sectionVals : List (List Int))
    (scee scnb : Option (List ℚ)) (serials : List Int) : List OneFourEntry :=
  if serials.length < 2 then []
  else
    let t0 := serials.getD 0 0
    let t1 := serials.getD 1 0
    sectionVals.flatMap (fun values =>
      (chunks5 values).filterMap (fun r =>
        let (ri, _, rk, rl, rp) := r
        if rk < 0 ∨ rl < 0 then none
        else
          let atom_i := pointer_to_serial ri
          let atom_l := pointer_to_serial rl
          if set2_eq atom_i atom_l t0 t1 then
            some { serials := [atom_i, atom_l],
                   param_index := (rp.natAbs : Int),
                   scee := get_param_value scee (rp.natAbs : Int),
                   scnb := get_param_value scnb (rp.natAbs : Int) }
          else none))

/-- Model of `_type_index` (`system_info_selection.py` lines 262-275): the type index
of a serial, `none` when out of range or non-positive (conversion failures
cannot arise for integer inputs). -/
def type_index_lookup (atom_type_indices : List Int) (serial : Int) :
    Option Int :=
  let idx := serial - 1
  if idx < 0 ∨ (atom_type_indices.length : Int) ≤ idx then none
  else
    let value := atom_type_indices.getD idx.toNat 0
    if value ≤ 0 then none else some value

/-- The mutable state threaded through `_accumulate_dihedral_records`:
`dihedrals_by_idx` insertions (keys are the strictly increasing term
indices, so a list of pairs models the dict) and `one_four_by_key` appends
flattened in insertion order as `(key, pair)`. -/
structure DihedralAccum where
  dihedrals_by_idx : List (Int × (Int × Int × Int × Int))
  one_four : List ((Int × Int × Int) × (Int × Int))
deriving DecidableEq, Repr

/-- The loop body of `_accumulate_dihedral_records`
(`system_info_selection.py` lines 236-254). -/
def accum_dihedral_step (atom_type_indices : List Int)
    (st : DihedralAccum × Int) (r : Int × Int × Int × Int × Int) :
    DihedralAccum × Int :=
  let (acc, term_idx) := st
  let (ri, rj, rk, rl, rp) := r
  let serial_i := pointer_to_serial ri
  let serial_j := pointer_to_serial rj
  let serial_k := pointer_to_serial rk
  let serial_l := pointer_to_serial rl
  let acc1 : DihedralAccum :=
    { acc with dihedrals_by_idx :=
        acc.dihedrals_by_idx ++ [(term_idx, (serial_i, serial_j, serial_k, serial_l))] }
  let next := term_idx + 1
  if rk < 0 ∨ rl < 0 then (acc1, next)
  else
    match type_index_lookup atom_type_indices serial_i,
        type_index_lookup atom_type_indices serial_l with
    | some type_i, some type_l =>
      let param_index : Int := (rp.natAbs : Int)
      let p := sorted_pair type_i type_l
      ({ acc1 with one_four :=
          acc1.one_four ++ [((p.1, p.2, param_index), (serial_i, serial_l))] },
        next)
    | _, _ => (acc1, next)

/-- Model of `_accumulate_dihedral_records` (`system_info_selection.py`
lines 227-255): every complete 5-tuple contributes a `dihedrals_by_idx`
entry at the running term index; 1-4 pairs are skipped for records with a
negative 3rd or 4th field or a failed terminal type lookup. -/
def accumulate_dihedral_records (values atom_type_indices : List Int)
    (term_idx : Int) (acc : DihedralAccum) : DihedralAccum × Int :=
  (chunks5 values).foldl (accum_dihedral_step atom_type_indices) (acc, term_idx)

/-- The 1-4 contribution of a single dihedral record, written as the spec
describes it (skip on negative 3rd/4th field, key by sorted terminal types
and absolute parameter index). -/
def one_four_of_record (atom_type_indices : List Int)
    (r : Int × Int × Int × Int × Int) :
    Option ((Int × Int × Int) × (Int × Int)) :=
  let (ri, _, rk, rl, rp) := r
  if rk < 0 ∨ rl < 0 then none
  else
    let serial_i := pointer_to_serial ri
    let serial_l := pointer_to_serial rl
    match type_index_lookup atom_type_indices serial_i,
        type_index_lookup atom_type_indices serial_l with
    | some type_i, some type_l =>
      let p := sorted_pair type_i type_l
      some ((p.1, p.2, (rp.natAbs : Int)), (serial_i, serial_l))
    | _, _ => none

/-- The record-collection loop of `_build_improper_table`
(`system_info.py` lines 869-897): an entry `(serial quad, |param|, term
index)` is appended exactly for records whose raw 4th field is negative;
the term index advances on every record. -/
def improper_step (st : List ((Int × Int × Int × Int) × Int × Int) × Int)
    (r : Int × Int × Int × Int × Int) :
    List ((Int × Int × Int × Int) × Int × Int) × Int :=
  let (entries, term_idx) := st
  let (ri, rj, rk, rl, rp) := r
  let entries1 :=
    if rl < 0 then
      entries ++
        [((pointer_to_serial ri, pointer_to_serial rj, pointer_to_serial rk,
           pointer_to_serial rl), (rp.natAbs : Int), term_idx)]
    else entries
  (entries1, term_idx + 1)

/-- Model of the improper entry collection of `_build_improper_table` over
one dihedral section's decoded values. -/
def improper_entries (values : List Int) (term_idx : Int) :
    List ((Int × Int × Int × Int) × Int × Int) × Int :=
  (chunks5 values).foldl improper_step ([], term_idx)

/-- The per-record row of `_build_bond_table` (`system_info.py` lines
496-519) before grouping: endpoint types sorted ascending, absolute
parameter index.  The numpy type lookup `atom_type_indices[serial - 1]`
is modelled with a default of 0 (the table builder presumes in-range
serials; numpy would raise otherwise).  The float parameter columns of the
grouping key do not bear on the canonicalization claim and are omitted. -/
def bond_table_rows (atom_type_indices : List Int)
    (bondSections : List (List Int)) : List (Int × Int × Int) :=
  bondSections.flatMap (fun values =>
    (chunks3 values).map (fun r =>
      let (ra, rb, rp) := r
      let serial_a := pointer_to_serial ra
      let serial_b := pointer_to_serial rb
      let type_a := atom_type_indices.getD (serial_a - 1).toNat 0
      let type_b := atom_type_indices.getD (serial_b - 1).toNat 0
      let p := sorted_pair type_a type_b
      (p.1, p.2, (rp.natAbs : Int))))

/-- The number of occurrences of a key (group size). -/
def countOcc {K : Type} [DecidableEq K] (keys : List K) (k : K) : Nat :=
  keys.countP (fun x => decide (x = k))

/-- Grouping identical keys with their multiplicities (the content of the
pandas `groupby(...).size()` on the modelled key columns; row order is not
part of any claim). -/
def group_counts {K : Type} [DecidableEq K] (keys : List K) : List (K × Nat) :=
  keys.dedup.map (fun k => (k, countOcc keys k))

/-- The bond-type table of `_build_bond_table`, as grouped canonical keys
with counts. -/
def bond_type_table (atom_type_indices : List Int)
    (bondSections : List (List Int)) : List ((Int × Int × Int) × Nat) :=
  group_counts (bond_table_rows atom_type_indices bondSections)

/-- The per-record row of `_build_one_four_table` (`system_info.py` lines
989-1016) before grouping: dihedral records with a negative 3rd or 4th raw
field are masked out, the terminal serials come from fields 0 and 3, the
endpoint types are sorted ascending and the parameter index is taken
absolute.  As for bonds, the numpy type lookup is modelled with a default
of 0, and the float/lookup columns of the grouping key (`scee`, `scnb`,
`pair_index`, coefficient and derived columns) do not bear on the
canonicalization claim and are omitted. -/
def one_four_table_rows (atom_type_indices : List Int)
    (dihSections : List (List Int)) : List (Int × Int × Int) :=
  dihSections.flatMap (fun values =>
    (chunks5 values).filterMap (fun r =>
      let (ri, _, rk, rl, rp) := r
      if rk < 0 ∨ rl < 0 then none
      else
        let serial_a := pointer_to_serial ri
        let serial_b := pointer_to_serial rl
        let type_a := atom_type_indices.getD (serial_a - 1).toNat 0
        let type_b := atom_type_indices.getD (serial_b - 1).toNat 0
        let p := sorted_pair type_a type_b
        some (p.1, p.2, (rp.natAbs : Int))))

/-- The 1-4 nonbonded table of `_build_one_four_table`, as grouped
canonical keys with counts. -/
def one_four_type_table (atom_type_indices : List Int)
    (dihSections : List (List Int)) : List ((Int × Int × Int) × Nat) :=
  group_counts (one_four_table_rows atom_type_indices dihSections)

/-- The per-record row of `_build_angle_table` (`system_info.py` lines
668-692) before grouping: terminal types sorted ascending, middle type
fixed, absolute parameter index. -/
def angle_table_rows (atom_type_indices : List Int)
    (angleSections : List (List Int)) : List (Int × Int × Int × Int) :=
  angleSections.flatMap (fun values =>
    (chunks4 values).map (fun r =>
      let (ri, rj, rk, rp) := r
      let serial_i := pointer_to_serial ri
      let serial_j := pointer_to_serial rj
      let serial_k := pointer_to_serial rk
      let type_i := atom_type_indices.getD (serial_i - 1).toNat 0
      let type_j := atom_type_indices.getD (serial_j - 1).toNat 0
      let type_k := atom_type_indices.getD (serial_k - 1).toNat 0
      let p := sorted_pair type_i type_k
      (p.1, type_j, p.2, (rp.natAbs : Int))))

/-- The angle-type table of `_build_angle_table`, as grouped canonical keys
with counts. -/
def angle_type_table (atom_type_indices : List Int)
    (angleSections : List (List Int)) : List ((Int × Int × Int × Int) × Nat) :=
  group_counts (angle_table_rows atom_type_indices angleSections)

/-- The atom-serial endpoint pairs of one bond section's records
(`_get_bond_adjacency` loop, `highlights.py` lines 310-315). -/
def bond_serial_pairs (values : List Int) : List (Int × Int) :=
  (chunks3 values).map (fun r => (pointer_to_serial r.1, pointer_to_serial r.2.1))

/-- All bond endpoint pairs over the present bond sections; the adjacency
dict of `_get_bond_adjacency` is empty exactly when this list is empty. -/
def adjacency_pairs (bondSections : List (List Int)) : List (Int × Int) :=
  bondSections.flatMap bond_serial_pairs

/-- The neighbor set `adjacency.get(x, set())` of `_get_bond_adjacency`,
as a list with the same membership (the Python `set` only deduplicates). -/
def neighbors (pairs : List (Int × Int)) (x : Int) : List Int :=
  pairs.flatMap (fun p =>
    if x = p.1 then [p.2] else if x = p.2 then [p.1] else [])

/-- Python's `min` over a non-empty list. -/
def pyMin : List Int → Option Int
  | [] => none
  | x :: xs => some (xs.foldl min x)

/-- Model of `HighlightEngine._infer_improper_central` (`highlights.py`
lines 333-350): among the first four selected serials, the candidates
bond-adjacent to every other member, resolved to the smallest serial. -/
def infer_improper_central (pairs : List (Int × Int)) (serials : List Int) :
    Option Int :=
  if serials.length < 4 then none
  else if pairs.isEmpty then none
  else
    let clean := serials.take 4
    let candidates := clean.filter (fun c =>
      clean.all (fun other => other == c || (neighbors pairs c).contains other))
    pyMin candidates

/-- Model of `HighlightEngine._order_improper` (lines 320-331): the central atom
first, the remaining serials (all occurrences equal to the central removed)
sorted ascending. -/
def order_improper (central : Int) (serials : List Int) : List Int :=
  central :: ((serials.filter (fun s => s ≠ central)).insertionSort (· ≤ ·))

/-- Model of `HighlightEngine._is_improper_record` (lines 352-361). -/
def is_improper_record (pairs : List (Int × Int)) (central : Int)
    (record_serials : List Int) : Bool :=
  if pairs.isEmpty then false
  else
    record_serials.all (fun other =>
      other == central || (neighbors pairs central).contains other)

/-- Equality of the Python sets underlying two integer lists. -/
def list_set_eq (xs ys : List Int) : Bool :=
  xs.all (fun x => ys.contains x) && ys.all (fun y => xs.contains y)

/-- Model of `HighlightEngine._extract_improper_params` (lines 641-690). -/
def extract_improper_params (pairs : List (Int × Int))
    (sectionVals : List (List Int)) (ps : DihedralFloatParams)
    (serials : List Int) : List DihedralParamEntry :=
  if serials.length < 4 then []
  else
    match infer_improper_central pairs serials with
    | none => []
    | some central =>
      let ordered := order_improper central (serials.take 4)
      sectionVals.flatMap (fun values =>
        (chunks5 values).filterMap (fun r =>
          let (ri, rj, rk, rl, rp) := r
          let record := [pointer_to_serial ri, pointer_to_serial rj,
                         pointer_to_serial rk, pointer_to_serial rl]
          if list_set_eq ordered record && is_improper_record pairs central record
          then some (dihedral_entry ps ordered (rp.natAbs : Int))
          else none))

/-- One bond interaction record produced by `_extract_bond_params`
(`type_indices` omitted as in `AngleParamEntry`). -/
structure BondParamEntry where
  serials : List Int
  param_index : Int
  force_constant : Option ℚ
  equil_value : Option ℚ
deriving DecidableEq, Repr

/-- Model of `HighlightEngine._extract_bond_params` (lines 438-475). -/
def extract_bond_params (sectionVals : List (List Int))
    (force equil : Option (List ℚ)) (serials : List Int) :
    List BondParamEntry :=
  if serials.length < 2 then []
  else
    let t0 := serials.getD 0 0
    let t1 := serials.getD 1 0
    sectionVals.flatMap (fun values =>
      (chunks3 values).filterMap (fun r =>
        let (ra, rb, rp) := r
        let atom_a := pointer_to_serial ra
        let atom_b := pointer_to_serial rb
        if set2_eq atom_a atom_b t0 t1 then
          some { serials := [atom_a, atom_b],
                 param_index := (rp.natAbs : Int),
                 force_constant := get_param_value force (rp.natAbs : Int),
                 equil_value := get_param_value equil (rp.natAbs : Int) }
        else none))

/-- A highlight span as returned by the highlight engine, deduplicated by
`(line, start, endCol)`. -/
structure Highlight where
  line : Nat
  start : Nat
  endCol : Nat
  section_name : String
deriving DecidableEq, Repr

/-- The slice of `AtomMeta` (`topview/model/state.py`) consulted by the
highlight engine: the serial, the 1-based residue index, and the
`parm7["atom_type_index"]` entry (other fields do not bear on the claims). -/
structure AtomMetaM where
  serial : Int
  residue_index : Int
  atom_type_index : Option Int
deriving DecidableEq, Repr

/-- Model of `HighlightEngine` state (`topview/model/highlights.py` lines
28-56).  The memoizing `_int_cache`/`_float_cache` dictionaries are an
optimization with no observable effect on results and are elided; sections
are re-decoded through the abstract Python numeric conversions `pint`,
`pfloatInt` and `pfloat`.  The optional constructor-supplied bond adjacency
is kept. -/
structure Engine where
  sections : Sections
  meta_by_serial : List (Int × AtomMetaM)
  pint : String → Option Int
  pfloatInt : String → Option Int
  pfloat : String → Option ℚ
  bond_adjacency : Option (List (Int × Int))

/-- The decoded integer values of a named section, `none` when the section
is missing or has no tokens (the loops' `if not section or not
section.tokens: continue`). -/
def Engine.intSection (e : Engine) (name : String) : Option (List Int) :=
  match getSection e.sections name with
  | some s =>
    if s.tokens.isEmpty then none
    else some (parse_int_tokens e.pint e.pfloatInt s.tokens)
  | none => none

/-- The decoded integer values of the present, non-empty sections among
`names`, in order. -/
def Engine.sectionVals (e : Engine) (names : List String) : List (List Int) :=
  names.filterMap e.intSection

/-- The decoded float values of a named section for `_get_param_value`
(`none` only when the section is missing; an empty section yields an empty
list whose every index is out of range). -/
def Engine.floatSection (e : Engine) (name : String) : Option (List ℚ) :=
  match getSection e.sections name with
  | some s => some (parse_float_tokens e.pfloat 0 s.tokens)
  | none => none

/-- The two bond sections in the order every bond loop visits them. -/
def bond_section_names : List String :=
  ["BONDS_INC_HYDROGEN", "BONDS_WITHOUT_HYDROGEN"]

/-- The two angle sections in loop order. -/
def angle_section_names : List String :=
  ["ANGLES_INC_HYDROGEN", "ANGLES_WITHOUT_HYDROGEN"]

/-- The two dihedral sections in loop order. -/
def dihedral_section_names : List String :=
  ["DIHEDRALS_INC_HYDROGEN", "DIHEDRALS_WITHOUT_HYDROGEN"]

/-- Model of `HighlightEngine._get_bond_adjacency` (lines 302-317) as the endpoint
pair list: the constructor-supplied adjacency when present, else the pairs
derived from the bond sections. -/
def Engine.adjacency (e : Engine) : List (Int × Int) :=
  match e.bond_adjacency with
  | some pairs => pairs
  | none => adjacency_pairs (e.sectionVals bond_section_names)

/-- The five dihedral parameter sections as consulted by the extractors. -/
def Engine.dihedralParams (e : Engine) : DihedralFloatParams :=
  { force := e.floatSection "DIHEDRAL_FORCE_CONSTANT",
    periodicity := e.floatSection "DIHEDRAL_PERIODICITY",
    phase := e.floatSection "DIHEDRAL_PHASE",
    scee := e.floatSection "SCEE_SCALE_FACTOR",
    scnb := e.floatSection "SCNB_SCALE_FACTOR" }

/-- Python `meta = self._meta_by_serial.get(serial)`. -/
def Engine.metaFor (e : Engine) (serial : Int) : Option AtomMetaM :=
  (e.meta_by_serial.find? (fun p => p.1 = serial)).map (fun p => p.2)

/-- Model of `HighlightEngine._get_atom_type_index` (lines 219-229): `none` when the
serial has no metadata or the metadata has no type index. -/
def Engine.atom_type_index (e : Engine) (serial : Int) : Option Int :=
  match e.metaFor serial with
  | none => none
  | some meta => meta.atom_type_index

/-- A highlight span for one token of a named section. -/
def tokenHighlight (name : String) (t : Parm7Token) : Highlight :=
  { line := t.line, start := t.start, endCol := t.endCol, section_name := name }

/-- The dedup key test of the `seen` set (`(line, start, end)`). -/
def highlightSeen (hs : List Highlight) (hl : Highlight) : Bool :=
  hs.any (fun h => h.line = hl.line ∧ h.start = hl.start ∧ h.endCol = hl.endCol)

/-- Append a highlight unless a span with the same `(line, start, end)` key
was already collected. -/
def pushHighlight (hs : List Highlight) (hl : Highlight) : List Highlight :=
  if highlightSeen hs hl then hs else hs ++ [hl]

/-- The per-atom section list of `build_atom_highlights` (lines 73-80). -/
def per_atom_section_names : List String :=
  ["ATOM_NAME", "CHARGE", "ATOMIC_NUMBER", "MASS", "ATOM_TYPE_INDEX",
   "AMBER_ATOM_TYPE"]

/-- The residue section list of `build_atom_highlights` (line 92). -/
def residue_section_names : List String :=
  ["RESIDUE_LABEL", "RESIDUE_POINTER"]

/-- Model of `HighlightEngine.build_atom_highlights` (lines 58-103): the
atom's token in each per-atom section (indexed by `serial - 1`) and its
residue's token in each residue section (indexed by `residue_index - 1`),
skipping missing sections and out-of-range indices. -/
def Engine.build_atom_highlights (e : Engine) (meta : AtomMetaM) :
    List Highlight :=
  (per_atom_section_names.filterMap (fun name =>
    match getSection e.sections name with
    | none => none
    | some s =>
      let index := meta.serial - 1
      if 0 ≤ index ∧ index < (s.tokens.length : Int) then
        (s.tokens.get? index.toNat).map (tokenHighlight name)
      else none)) ++
  (residue_section_names.filterMap (fun name =>
    match getSection e.sections name with
    | none => none
    | some s =>
      let index := meta.residue_index - 1
      if 0 ≤ index ∧ index < (s.tokens.length : Int) then
        (s.tokens.get? index.toNat).map (tokenHighlight name)
      else none))

/-- Model of `HighlightEngine._add_highlight` (lines 363-379). -/
def add_highlight (hs : List Highlight) (s : Parm7Section) (token_index : Int) :
    List Highlight :=
  if token_index < 0 ∨ (s.tokens.length : Int) ≤ token_index then hs
  else
    match s.tokens.get? token_index.toNat with
    | none => hs
    | some t => pushHighlight hs (tokenHighlight s.name t)

/-- Model of `HighlightEngine._add_param_highlight` (lines 381-393). -/
def Engine.add_param_highlight (e : Engine) (hs : List Highlight)
    (section_name : String) (param_index : Int) : List Highlight :=
  if param_index ≤ 0 then hs
  else
    match getSection e.sections section_name with
    | none => hs
    | some s => add_highlight hs s (param_index - 1)

/-- Model of `HighlightEngine._get_ntypes` (lines 411-428): the square root of the
`NONBONDED_PARM_INDEX` length when it is a perfect square, else the
triangular-number inverse of the `LENNARD_JONES_ACOEF` token count when that
is triangular (`int(...)` truncation of the float square roots coincides
with `Nat.sqrt` wherever the subsequent exactness guards can succeed). -/
def Engine.get_ntypes (e : Engine) (values : List Int) : Option Int :=
  if values.isEmpty then none
  else
    let ntypes := Nat.sqrt values.length
    if 0 < ntypes ∧ ntypes * ntypes = values.length then some (ntypes : Int)
    else
      match getSection e.sections "LENNARD_JONES_ACOEF" with
      | none => none
      | some s =>
        let acoef_count := s.tokens.length
        if acoef_count = 0 then none
        else
          let estimate := (Nat.sqrt (8 * acoef_count + 1) - 1) / 2
          if 0 < estimate ∧ estimate * (estimate + 1) / 2 = acoef_count then
            some (estimate : Int)
          else none

/-- Model of `HighlightEngine._nonbond_index` (lines 430-436). -/
def nonbond_index_at (values : List Int) (ntypes type_a type_b : Int) :
    Option (Int × Int) :=
  let idx := (type_a - 1) * ntypes + (type_b - 1)
  if idx < 0 ∨ (values.length : Int) ≤ idx then none
  else some (idx, values.getD idx.toNat 0)

/-- Model of `HighlightEngine._highlight_atom_lj` (lines 231-260): in Atom mode, the
diagonal nonbonded coefficient entry of the atom's own type (the
`LENNARD_JONES_ACOEF` entry for a positive index, the `HBOND_ACOEF` entry
for a negative one).  Note the source guard `if not type_index` also drops
a zero type index. -/
def Engine.highlight_atom_lj (e : Engine) (hs : List Highlight) (serial : Int) :
    List Highlight :=
  match e.atom_type_index serial with
  | none => hs
  | some type_index =>
    if type_index = 0 then hs
    else
      match e.intSection "NONBONDED_PARM_INDEX" with
      | none => hs
      | some values =>
        if values.isEmpty then hs
        else
          match e.get_ntypes values with
          | none => hs
          | some ntypes =>
            let index := (type_index - 1) * ntypes + (type_index - 1)
            if index < 0 ∨ (values.length : Int) ≤ index then hs
            else
              let nb_index := values.getD index.toNat 0
              if 0 < nb_index then
                e.add_param_highlight hs "LENNARD_JONES_ACOEF" nb_index
              else if nb_index < 0 then
                e.add_param_highlight hs "HBOND_ACOEF" nb_index.natAbs
              else hs

/-- The nonbonded interaction payload of `_extract_nonbonded_params`
(lines 734-780); `rmin` is irrational in general and is modelled in `ℝ`. -/
structure NonbondedParams where
  serials : List Int
  type_indices : List Int
  nb_index : Int
  acoef : Option ℚ
  bcoef : Option ℚ
  rmin : Option ℝ
  epsilon : Option ℚ

/-- Model of `HighlightEngine._extract_nonbonded_params` (lines 734-780).
The source guards `if not type_a or not type_b` and `if acoef and bcoef`
treat zero as falsy. -/
noncomputable def Engine.extract_nonbonded_params (e : Engine)
    (serials : List Int) : Option NonbondedParams :=
  if serials.length < 2 then none
  else
    let s0 := serials.getD 0 0
    let s1 := serials.getD 1 0
    match e.metaFor s0, e.metaFor s1 with
    | some meta_a, some meta_b =>
      match meta_a.atom_type_index, meta_b.atom_type_index with
      | some type_a, some type_b =>
        if type_a = 0 ∨ type_b = 0 then none
        else
          match e.intSection "NONBONDED_PARM_INDEX" with
          | none => none
          | some values =>
            if values.isEmpty then none
            else
              match e.get_ntypes values with
              | none => none
              | some ntypes =>
                let primary := nonbond_index_at values ntypes type_a type_b
                let secondary := nonbond_index_at values ntypes type_b type_a
                let nb0 := match primary with
                  | some p => p.2
                  | none => 0
                let nb_index := match secondary with
                  | some p => if nb0 = 0 then p.2 else nb0
                  | none => nb0
                let acoef :=
                  if 0 < nb_index then
                    get_param_value (e.floatSection "LENNARD_JONES_ACOEF") nb_index
                  else none
                let bcoef :=
                  if 0 < nb_index then
                    get_param_value (e.floatSection "LENNARD_JONES_BCOEF") nb_index
                  else none
                let usable : Bool := match acoef, bcoef with
                  | some a, some b => a != 0 && b != 0
                  | _, _ => false
                let epsilon : Option ℚ :=
                  if usable then
                    match acoef, bcoef with
                    | some a, some b => some (b * b / (4 * a))
                    | _, _ => none
                  else none
                let rmin : Option ℝ :=
                  if usable then
                    match acoef, bcoef with
                    | some a, some b =>
                      some ((2 * (a : ℝ) / (b : ℝ)) ^ ((1 : ℝ) / 6))
                    | _, _ => none
                  else none
                some { serials := [s0, s1], type_indices := [type_a, type_b],
                       nb_index := nb_index, acoef := acoef, bcoef := bcoef,
                       rmin := rmin, epsilon := epsilon }
      | _, _ => none
    | _, _ => none

/-- The tagged per-mode interaction payload of `get_highlights`. -/
inductive Interaction where
  | bond (entries : List BondParamEntry)
  | angle (entries : List AngleParamEntry)
  | dihedral (entries : List DihedralParamEntry)
  | improper (entries : List DihedralParamEntry)
  | oneFour (entries : List OneFourEntry) (nonbonded : Option NonbondedParams)
  | nonbonded (payload : Option NonbondedParams)

/-- Model of `HighlightEngine.get_highlights` (lines 105-209).  An empty
selection returns immediately with no highlights and a `none` interaction.
Otherwise the per-atom base spans are collected (deduplicated by span key)
and serials without metadata raise a `not_found` `ModelError`; the mode
dispatch then computes the interaction payload through the extractors (and
the Atom-mode diagonal LJ span).  The additional relationship-span
collection of the `_highlight_*` helpers (which only extends the `highlights`
list for non-empty selections and is the subject of no claim) is elided. -/
noncomputable def Engine.get_highlights (e : Engine) (serials : List Int)
    (mode : Option String) : Except String (List Highlight × Option Interaction) :=
  if serials.isEmpty then Except.ok ([], none)
  else
    let step := fun (st : List Highlight × List Int) (serial : Int) =>
      match e.metaFor serial with
      | none => (st.1, st.2 ++ [serial])
      | some meta => ((e.build_atom_highlights meta).foldl pushHighlight st.1, st.2)
    let collected := serials.foldl step ([], [])
    if ¬ collected.2.isEmpty then Except.error "not_found"
    else
      let normalized_mode := (mode.getD "Atom").trim
      if normalized_mode = "Atom" then
        Except.ok (serials.foldl e.highlight_atom_lj collected.1, none)
      else if normalized_mode = "Bond" then
        Except.ok (collected.1, some (Interaction.bond
          (extract_bond_params (e.sectionVals bond_section_names)
            (e.floatSection "BOND_FORCE_CONSTANT")
            (e.floatSection "BOND_EQUIL_VALUE") serials)))
      else if normalized_mode = "Angle" then
        Except.ok (collected.1, some (Interaction.angle
          (extract_angle_params (e.sectionVals angle_section_names)
            (e.floatSection "ANGLE_FORCE_CONSTANT")
            (e.floatSection "ANGLE_EQUIL_VALUE") serials)))
      else if normalized_mode = "Dihedral" then
        Except.ok (collected.1, some (Interaction.dihedral
          (extract_dihedral_params (e.sectionVals dihedral_section_names)
            e.dihedralParams serials)))
      else if normalized_mode = "Improper" then
        Except.ok (collected.1, some (Interaction.improper
          (extract_improper_params e.adjacency
            (e.sectionVals dihedral_section_names) e.dihedralParams serials)))
      else if normalized_mode = "1-4 Nonbonded" then
        let one_four := extract_14_params (e.sectionVals dihedral_section_names)
          (e.floatSection "SCEE_SCALE_FACTOR")
          (e.floatSection "SCNB_SCALE_FACTOR") serials
        let first_pair := match one_four with
          | [] => serials
          | entry :: _ => entry.serials
        Except.ok (collected.1, some (Interaction.oneFour one_four
          (e.extract_nonbonded_params first_pair)))
      else if normalized_mode = "Non-bonded" then
        Except.ok (collected.1, some (Interaction.nonbonded
          (e.extract_nonbonded_params serials)))
      else
        Except.ok (collected.1, none)

/-- Whether an `Except` value is a success (Python: the call returned
instead of raising). -/
def exceptOk {ε α : Type} : Except ε α → Bool
  | Except.ok _ => true
  | Except.error _ => false

/-- The raw token texts of a named section (`[token.value for token in
section.tokens]`), empty when the section is missing. -/
def tokensOf (sections : Sections) (name : String) : List String :=
  match getSection sections name with
  | some s => s.tokens.map (fun t => t.value)
  | none => []

/-- The improper contribution of a single indexed dihedral record, written
as the spec describes it: included with its absolute parameter index
exactly when the raw 4th field is negative, carrying the running term
index. -/
def improper_of_record (term0 : Int)
    (nr : Nat × (Int × Int × Int × Int × Int)) :
    Option ((Int × Int × Int × Int) × Int × Int) :=
  let (n, r) := nr
  let (ri, rj, rk, rl, rp) := r
  if rl < 0 then
    some ((pointer_to_serial ri, pointer_to_serial rj, pointer_to_serial rk,
      pointer_to_serial rl), (rp.natAbs : Int), term0 + (n : Int))
  else none

/-- A 31-value `POINTERS` payload whose `IFPERT` slot (index 20) is
negative while `NATOM` and `NTYPES` are valid. -/
def c1_negative_pointers : List Int :=
  [10, 2, 0, 0, 0, 0, 0, 0, 0, 0, 0, 0, 0, 0, 0, 0, 0, 0, 0, 0,
   -1, 0, 0, 0, 0, 0, 0, 0, 0, 0, 0]

/-- The pointer names actually read (through `_pointer_value`) by the table
and selection-index builders. -/
def consumed_pointer_names : List String :=
  ["NATOM", "NTYPES", "NBONH", "MBONA", "NTHETH", "MTHETA", "NPHIH", "MPHIA",
   "NUMBND", "NUMANG", "NPTRA", "NPHB"]

/-- Records paired with their 0-based positions, starting at offset `n`. -/
def idx_records {α : Type} : Nat → List α → List (Nat × α)
  | _, [] => []
  | n, x :: xs => (n, x) :: idx_records (n + 1) xs

/-! ## Helper lemmas -/

theorem combLoop_ok_iff (span : Nat) : ∀ (i remaining : Nat) (p : Nat × Nat),
    combLoop span i remaining = Except.ok p ↔
      (pairsFrom span i)[remaining]? = some p := by
  induction span with
  | zero => intro i remaining p; simp [combLoop, pairsFrom]
  | succ span ih =>
    intro i remaining p
    by_cases h : remaining < span + 1
    · rw [combLoop, if_pos h, pairsFrom,
        List.getElem?_append_left (by simpa using h)]
      simp [List.getElem?_range, h, eq_comm]
    · rw [combLoop, if_neg h, pairsFrom,
        List.getElem?_append_right (by simpa using Nat.le_of_not_lt h)]
      simpa using ih (i + 1) (remaining - (span + 1)) p

theorem pairsFrom_length (span : Nat) :
    ∀ i : Nat, 2 * (pairsFrom span i).length = span * (span + 1) := by
  induction span with
  | zero => intro i; simp [pairsFrom]
  | succ span ih =>
    intro i
    have h := ih (i + 1)
    simp only [pairsFrom, List.length_append, List.length_map, List.length_range]
    nlinarith [h]

theorem total_eq_allPairs_length (sa : List Int) :
    nonbonded_pair_total sa sa true = (allPairs sa.length).length := by
  have h := pairsFrom_length (sa.length - 1) 0
  simp only [nonbonded_pair_total, allPairs, if_pos]
  rcases Nat.eq_zero_or_pos sa.length with h0 | h0
  · simp [h0, pairsFrom]
  · have hs : (sa.length - 1) * (sa.length - 1 + 1) = sa.length * (sa.length - 1) := by
      have : sa.length - 1 + 1 = sa.length := Nat.succ_pred_eq_of_pos h0
      rw [this, Nat.mul_comm]
    rw [hs] at h
    omega

/-! ## Claim theorems -/

/-- C3: for nonbonded-pair selection the total is `n*(n-1)/2` in the
same-type case and `n_a*n_b` in the cross-type case; the same-type total
equals the length of the materialized combination enumeration, and the
closed-form cursor mapping `_combination_pair_index` returns exactly the
pair at the cursor position of that enumeration (without materializing it);
for the serial list `[1,3,5,7]` the total is 6 and cursor 3 yields `(3,5)`,
and for cross-type lists of sizes 2 and 3 the total is 6. -/
theorem nonbonded_pair_selection_correct :
    (∀ serials_a serials_b : List Int,
      nonbonded_pair_total serials_a serials_b true =
        serials_a.length * (serials_a.length - 1) / 2) ∧
    (∀ serials_a serials_b : List Int,
      nonbonded_pair_total serials_a serials_b false =
        serials_a.length * serials_b.length) ∧
    (∀ serials_a : List Int,
      nonbonded_pair_total serials_a serials_a true =
        (allPairs serials_a.length).length) ∧
    (∀ (count idx : Nat) (p : Nat × Nat),
      combination_pair_index count idx = Except.ok p ↔
        (allPairs count)[idx]? = some p) ∧
    nonbonded_pair_total [1, 3, 5, 7] [1, 3, 5, 7] true = 6 ∧
    nonbonded_pair_for_cursor [1, 3, 5, 7] [1, 3, 5, 7] 3 true =
      Except.ok (3, 5) ∧
    nonbonded_pair_total [1, 3] [2, 4, 5] false = 6 := by
  refine ⟨fun sa sb => rfl, fun sa sb => rfl, total_eq_allPairs_length,
    ?_, by decide, by rfl, by decide⟩
  intro count idx p
  by_cases h : count < 2
  · interval_cases count <;>
      simp [combination_pair_index, allPairs, pairsFrom]
  · rw [combination_pair_index, if_neg h, allPairs]
    exact combLoop_ok_iff (count - 1) 0 idx p

/-- C10: for every mode string (and for every engine state), requesting
highlights with an empty list of serials returns an empty highlight list
and a null interaction payload without error: the guard returns before any
metadata or per-mode relationship lookup is consulted. -/
theorem get_highlights_empty_selection (e : Engine) (mode : Option String) :
    e.get_highlights [] mode = Except.ok ([], none) := by
  simp [Engine.get_highlights]

/-- C1 (counterexample): a `POINTERS` payload of 31 decoded values
containing a negative value (in the unconsumed `IFPERT` slot) decodes
successfully — `parse_pointers` performs no sign check, and every pointer
actually consumed downstream reads back without error, so decoding does
not fail "when any decoded value is negative" as claimed. -/
theorem pointers_negative_value_decodes :
    c1_negative_pointers.length = 31 ∧
    (-1 : Int) ∈ c1_negative_pointers ∧
    exceptOk (parse_pointers c1_negative_pointers) = true ∧
    (∀ n ∈ consumed_pointer_names,
      exceptOk (pointer_value (List.zip (POINTER_NAMES.take 31) c1_negative_pointers)
        n) = true) := by
  decide

/-- C1 (amended): decoding the `POINTERS` section's values fails exactly
when the number of decoded values is neither 31 nor 32, and otherwise
returns the mapping of exactly those values to the fixed pointer names in
order.  A negative decoded value does not fail decoding itself; instead,
each pointer value actually consumed is read through `_pointer_value`,
which fails exactly when that value is negative. -/
theorem pointers_decode_contract (values : List Int)
    (pointers : List (String × Int)) (name : String) :
    (exceptOk (parse_pointers values) = true ↔
      values.length = 31 ∨ values.length = 32) ∧
    (values.length = 31 ∨ values.length = 32 →
      parse_pointers values =
        Except.ok (List.zip (POINTER_NAMES.take values.length) values)) ∧
    (exceptOk (pointer_value pointers name) = true ↔
      0 ≤ pointersGet pointers name) ∧
    (pointersGet pointers name < 0 →
      pointer_value pointers name =
        Except.error ("POINTERS " ++ name ++ " value is negative")) ∧
    (0 ≤ pointersGet pointers name →
      pointer_value pointers name = Except.ok (pointersGet pointers name)) := by
  refine ⟨?_, ?_, ?_, ?_, ?_⟩
  · unfold parse_pointers
    split <;> simp_all [exceptOk]
  · intro h
    rw [parse_pointers, if_pos h]
  · by_cases h : pointersGet pointers name < 0 <;>
      simp [pointer_value, h, exceptOk] <;> omega
  · intro h
    rw [pointer_value]
    simp [h]
  · intro h
    rw [pointer_value]
    simp [Int.not_lt.mpr h]

/-- C1 (witness): the contract applied at a concrete 31-value payload and a
concrete pointer mapping. -/
theorem pointers_decode_contract_witness :
    parse_pointers c1_negative_pointers =
      Except.ok (List.zip (POINTER_NAMES.take 31) c1_negative_pointers) ∧
    pointer_value [("NATOM", (5 : Int))] "NATOM" = Except.ok 5 ∧
    pointer_value [("NATOM", (-3 : Int))] "NATOM" =
      Except.error "POINTERS NATOM value is negative" :=
  ⟨by
    have h := (pointers_decode_contract c1_negative_pointers [] "").2.1
      (Or.inl (by decide))
    simpa using h,
   by
    have h := (pointers_decode_contract [] [("NATOM", (5 : Int))] "NATOM").2.2.2.2
      (by decide)
    simpa [pointersGet] using h,
   by
    have h := (pointers_decode_contract [] [("NATOM", (-3 : Int))] "NATOM").2.2.2.1
      (by decide)
    simpa [pointersGet] using h⟩

/-- C8 (counterexample): a missing mandatory section with derived length 3
fails, as the source does, with the `ValueError` text
`ATOM_TYPE_INDEX section missing`, which contains no digit at all — so the
failure names the section but not the expected and actual counts, contrary
to the claim. -/
theorem missing_section_error_counts_counterexample :
    parse_int_section_sel (fun _ => none) (fun _ => none) []
      "ATOM_TYPE_INDEX" 3 =
      Except.error (SectionError.missing "ATOM_TYPE_INDEX") ∧
    sectionErrorMessage (SectionError.missing "ATOM_TYPE_INDEX") =
      "ATOM_TYPE_INDEX section missing" ∧
    (∀ c ∈ (sectionErrorMessage
        (SectionError.missing "ATOM_TYPE_INDEX")).toList,
      c.isDigit = false) :=
  ⟨rfl, by decide, by decide⟩

/-- C8 (amended): a mandatory integer section passes the length check
exactly when its actual token count (zero for a missing section) equals
the length derived from `POINTERS` (the `system_info` copy additionally
re-checks the count of values decoded by the vectorized backend).  Every
failure is a structured error naming the section; a count-mismatch failure
carries the expected and actual counts — its message text spells them out —
while the missing-section failure carries the section name alone. -/
theorem mandatory_section_length_contract
    (pint pfloatInt : String → Option Int) (npDecode : List String → List Int)
    (sections : Sections) (name : String) (expected : Nat) :
    (exceptOk (parse_int_section_sel pint pfloatInt sections name expected) = true ↔
      section_token_count sections name = expected) ∧
    (∀ err, parse_int_section_sel pint pfloatInt sections name expected =
        Except.error err →
      err = SectionError.missing name ∨
        err = SectionError.lengthMismatch name expected
          (section_token_count sections name)) ∧
    (∀ err, parse_int_section_sel pint pfloatInt sections name expected =
        Except.error err → err.sectionName = name) ∧
    (exceptOk (parse_int_section_si npDecode sections name expected) = true ↔
      section_token_count sections name = expected ∧
        (expected = 0 ∨ (npDecode (tokensOf sections name)).length = expected)) ∧
    (∀ err, parse_int_section_si npDecode sections name expected =
        Except.error err →
      err = SectionError.missing name ∨
        err = SectionError.lengthMismatch name expected
          (section_token_count sections name) ∨
        err = SectionError.parsedMismatch name expected
          ((npDecode (tokensOf sections name)).length)) ∧
    (∀ err, parse_int_section_si npDecode sections name expected =
        Except.error err → err.sectionName = name) ∧
    (sectionErrorMessage (SectionError.missing name) =
      name ++ " section missing") ∧
    (sectionErrorMessage
        (SectionError.lengthMismatch name expected
          (section_token_count sections name)) =
      name ++ " length " ++ toString (section_token_count sections name) ++
        " does not match expected " ++ toString expected) := by
  have core :
      (exceptOk (parse_int_section_sel pint pfloatInt sections name expected) = true ↔
        section_token_count sections name = expected) ∧
      (∀ err, parse_int_section_sel pint pfloatInt sections name expected =
          Except.error err →
        err = SectionError.missing name ∨
          err = SectionError.lengthMismatch name expected
            (section_token_count sections name)) ∧
      (exceptOk (parse_int_section_si npDecode sections name expected) = true ↔
        section_token_count sections name = expected ∧
          (expected = 0 ∨ (npDecode (tokensOf sections name)).length = expected)) ∧
      (∀ err, parse_int_section_si npDecode sections name expected =
          Except.error err →
        err = SectionError.missing name ∨
          err = SectionError.lengthMismatch name expected
            (section_token_count sections name) ∨
          err = SectionError.parsedMismatch name expected
            ((npDecode (tokensOf sections name)).length)) := by
    unfold parse_int_section_sel parse_int_section_si section_token_count tokensOf
    rcases hsec : getSection sections name with _ | s
    · by_cases h0 : expected = 0
      · simp [h0, exceptOk]
      · simp [h0, exceptOk]
        exact ⟨fun h => h0 h.symm, fun h => absurd h.symm h0⟩
    · by_cases h0 : expected = 0
      · by_cases hemp : s.tokens.isEmpty <;>
          simp_all [h0, exceptOk, List.isEmpty_iff, List.length_eq_zero]
      · by_cases hemp : s.tokens.isEmpty
        · simp_all [exceptOk, List.isEmpty_iff, List.length_eq_zero]
          exact ⟨fun h => h0 h.symm, fun h => absurd h.symm h0⟩
        · by_cases hlen : s.tokens.length = expected <;>
            by_cases hdec : (npDecode (s.tokens.map (fun t => t.value))).length = expected <;>
            simp_all [exceptOk]
  refine ⟨core.1, core.2.1, ?_, core.2.2.1, core.2.2.2, ?_, rfl, rfl⟩
  · intro err herr
    rcases core.2.1 err herr with h | h <;> subst h <;> rfl
  · intro err herr
    rcases core.2.2.2 err herr with h | h | h <;> subst h <;> rfl

/-- C3 (witness): the closed-form mapping agrees with the materialized
enumeration at a concrete cursor. -/
theorem nonbonded_pair_selection_correct_witness :
    (allPairs 4)[3]? = some (1, 2) :=
  (nonbonded_pair_selection_correct.2.2.2.1 4 3 (1, 2)).mp (by rfl)

/-- C8 (witness): the length contract applied at concrete sections — a
missing mandatory section with a nonzero derived length fails with the
error naming the section, and a zero-length contract over absent sections
succeeds. -/
theorem mandatory_section_length_contract_witness :
    (SectionError.missing "ATOM_TYPE_INDEX" =
        SectionError.missing "ATOM_TYPE_INDEX" ∨
      SectionError.missing "ATOM_TYPE_INDEX" =
        SectionError.lengthMismatch "ATOM_TYPE_INDEX" 3
          (section_token_count [] "ATOM_TYPE_INDEX")) ∧
    exceptOk (parse_int_section_sel (fun _ => none) (fun _ => none) []
      "ATOM_TYPE_INDEX" 0) = true :=
  ⟨(mandatory_section_length_contract (fun _ => none) (fun _ => none)
      (fun _ => []) [] "ATOM_TYPE_INDEX" 3).2.1
      (SectionError.missing "ATOM_TYPE_INDEX") (by rfl),
   (mandatory_section_length_contract (fun _ => none) (fun _ => none)
      (fun _ => []) [] "ATOM_TYPE_INDEX" 0).1.mpr (by rfl)⟩

/-- C2: for a Lennard-Jones coefficient pair, a coefficient below the
`1e-10` floor leaves both the radius and the well depth zero; otherwise,
with `factor = 2A/B`, the radius is `factor^(1/6)/2` and the well depth is
`B/(2*factor)`.  In particular for `A = 100, B = 10` the factor is 20, the
radius is `20^(1/6)/2` and the well depth is `1/4`, also as produced by
`build_lj_by_type` on a one-type system. -/
theorem lj_radius_well_depth_correct :
    (∀ acoef bcoef : ℝ, acoef < LJ_MIN_COEF ∨ bcoef < LJ_MIN_COEF →
      lj_rmin_epsilon acoef bcoef = (0, 0)) ∧
    (∀ acoef bcoef : ℝ, LJ_MIN_COEF ≤ acoef → LJ_MIN_COEF ≤ bcoef →
      lj_rmin_epsilon acoef bcoef =
        ((2 * acoef / bcoef) ^ ((1 : ℝ) / 6) / 2,
          bcoef / (2 * (2 * acoef / bcoef)))) ∧
    (2 * (100 : ℝ) / 10 = 20) ∧
    lj_rmin_epsilon 100 10 = ((20 : ℝ) ^ ((1 : ℝ) / 6) / 2, 1 / 4) ∧
    build_lj_by_type [1] [1] [100] [10] =
      [(1, { rmin := (20 : ℝ) ^ ((1 : ℝ) / 6) / 2, epsilon := 1 / 4,
             acoef := some 100, bcoef := some 10, pair_index := some 1 })] := by
  have hcond : LJ_MIN_COEF ≤ (100 : ℝ) ∧ LJ_MIN_COEF ≤ (10 : ℝ) := by
    constructor <;> norm_num [LJ_MIN_COEF]
  have hfactor : 2 * (100 : ℝ) / 10 = 20 := by norm_num
  have hconc : lj_rmin_epsilon 100 10 =
      ((20 : ℝ) ^ ((1 : ℝ) / 6) / 2, 1 / 4) := by
    rw [lj_rmin_epsilon, if_pos hcond]
    refine Prod.ext ?_ ?_
    · show (2 * (100 : ℝ) / 10) ^ ((1 : ℝ) / 6) * 0.5 = _
      rw [hfactor]
      norm_num
      ring
    · show (10 : ℝ) / 2 / (2 * 100 / 10) = 1 / 4
      norm_num
  refine ⟨?_, ?_, hfactor, hconc, ?_⟩
  · intro acoef bcoef h
    have hneg : ¬ (LJ_MIN_COEF ≤ acoef ∧ LJ_MIN_COEF ≤ bcoef) := by
      rcases h with h | h
      · exact fun hc => absurd hc.1 (not_le.mpr h)
      · exact fun hc => absurd hc.2 (not_le.mpr h)
    rw [lj_rmin_epsilon, if_neg hneg]
  · intro acoef bcoef ha hb
    rw [lj_rmin_epsilon, if_pos ⟨ha, hb⟩]
    refine Prod.ext ?_ ?_
    · show (2 * acoef / bcoef) ^ ((1 : ℝ) / 6) * 0.5 = _
      norm_num
      ring
    · show bcoef / 2 / (2 * acoef / bcoef) = _
      rw [div_div]
  · have hentry : lj_entry_for_type [1] [100] [10] 1 1 =
        { rmin := (20 : ℝ) ^ ((1 : ℝ) / 6) / 2, epsilon := 1 / 4,
          acoef := some 100, bcoef := some 10, pair_index := some 1 } := by
      rw [lj_entry_for_type]
      norm_num [List.getD]
      rw [hconc]
      exact ⟨rfl, rfl⟩
    have hn : lj_ntypes [1] [1] = 1 := by decide
    rw [build_lj_by_type, hn]
    have hr : List.range (Int.toNat 1) = [0] := by decide
    rw [hr]
    simp only [List.map_cons, List.map_nil, Nat.zero_add]
    show [((1 : Int), lj_entry_for_type [1] [100] [10] 1 (1 : Int))] = _
    rw [hentry]

/-- C2 (witness): the floor case and the formula case applied at concrete
coefficients. -/
theorem lj_radius_well_depth_correct_witness :
    lj_rmin_epsilon 0 0 = (0, 0) ∧
    lj_rmin_epsilon 100 10 =
      ((2 * (100 : ℝ) / 10) ^ ((1 : ℝ) / 6) / 2,
        10 / (2 * (2 * (100 : ℝ) / 10))) :=
  ⟨lj_radius_well_depth_correct.1 0 0 (Or.inl (by norm_num [LJ_MIN_COEF])),
   lj_radius_well_depth_correct.2.1 100 10 (by norm_num [LJ_MIN_COEF])
     (by norm_num [LJ_MIN_COEF])⟩

theorem insertionSort_eq_iff_perm (l₁ l₂ : List Int) :
    l₁.insertionSort (· ≤ ·) = l₂.insertionSort (· ≤ ·) ↔ l₁.Perm l₂ := by
  constructor
  · intro h
    have h1 : List.Perm l₁ (l₁.insertionSort (· ≤ ·)) :=
      (List.perm_insertionSort _ l₁).symm
    rw [h] at h1
    exact h1.trans (List.perm_insertionSort _ l₂)
  · intro h
    exact List.eq_of_perm_of_sorted
      (((List.perm_insertionSort _ l₁).trans h).trans
        (List.perm_insertionSort _ l₂).symm)
      (List.sorted_insertionSort _ l₁) (List.sorted_insertionSort _ l₂)

theorem match_triplet_iff (a b c : Int) (serials : List Int) :
    match_triplet a b c serials = true ↔
      3 ≤ serials.length ∧
        (serials.take 3 = [a, b, c] ∨ serials.take 3 = [c, b, a]) := by
  match serials with
  | [] => simp [match_triplet]
  | [x] => simp [match_triplet]
  | [x, y] => simp [match_triplet]
  | x :: y :: z :: rest =>
    have hlen : ¬ (x :: y :: z :: rest).length < 3 := by simp
    rw [match_triplet, if_neg hlen]
    have hge : 3 ≤ (x :: y :: z :: rest).length := by simp
    simp only [hge, true_and, List.take_succ_cons, List.take_zero,
      Bool.or_eq_true, Bool.and_eq_true, beq_iff_eq, List.getD_cons_zero,
      List.getD_cons_succ, List.cons.injEq, and_true]
    constructor <;> rintro (h | h) <;> simp_all

theorem match_triplet_unordered_iff (a b c : Int) (serials : List Int) :
    match_triplet_unordered a b c serials = true ↔
      3 ≤ serials.length ∧ List.Perm [a, b, c] (serials.take 3) := by
  rw [match_triplet_unordered]
  by_cases h : serials.length < 3
  · have h3 : ¬ 3 ≤ serials.length := by omega
    simp [h, h3]
  · have h3 : 3 ≤ serials.length := by omega
    simp only [if_neg h, beq_iff_eq, insertionSort_eq_iff_perm]
    simp [h3]

theorem match_quad_iff (a b c d : Int) (serials : List Int) :
    match_quad a b c d serials = true ↔
      4 ≤ serials.length ∧
        (serials.take 4 = [a, b, c, d] ∨ serials.take 4 = [d, c, b, a]) := by
  rw [match_quad]
  by_cases h : serials.length < 4
  · have h4 : ¬ 4 ≤ serials.length := by omega
    simp [h, h4]
  · have h4 : 4 ≤ serials.length := by omega
    simp [if_neg h, h4]

theorem match_quad_unordered_iff (a b c d : Int) (serials : List Int) :
    match_quad_unordered a b c d serials = true ↔
      4 ≤ serials.length ∧ List.Perm [a, b, c, d] (serials.take 4) := by
  rw [match_quad_unordered]
  by_cases h : serials.length < 4
  · have h4 : ¬ 4 ≤ serials.length := by omega
    simp [h, h4]
  · have h4 : 4 ≤ serials.length := by omega
    simp only [if_neg h, beq_iff_eq, insertionSort_eq_iff_perm]
    simp [h4]

theorem angle_entries_with_eq_nil
    (matchFn : Int → Int → Int → List Int → Bool)
    (svals : List (List Int)) (force equil : Option (List ℚ))
    (serials : List Int) :
    angle_entries_with matchFn svals force equil serials = [] ↔
      ∀ values ∈ svals, ∀ r ∈ chunks4 values,
        matchFn (pointer_to_serial r.1) (pointer_to_serial r.2.1)
          (pointer_to_serial r.2.2.1) serials = false := by
  rw [angle_entries_with, List.flatMap_eq_nil_iff]
  refine forall_congr' fun values => forall_congr' fun hv => ?_
  rw [List.filterMap_eq_nil_iff]
  refine forall_congr' fun r => forall_congr' fun hr => ?_
  obtain ⟨ra, rb, rc, rp⟩ := r
  by_cases hm : matchFn (pointer_to_serial ra) (pointer_to_serial rb)
      (pointer_to_serial rc) serials = true
  · simp [hm]
  · simp only [Bool.not_eq_true] at hm
    simp [hm]

theorem dihedral_entries_with_eq_nil
    (matchFn : Int → Int → Int → Int → List Int → Bool)
    (svals : List (List Int)) (ps : DihedralFloatParams)
    (serials : List Int) :
    dihedral_entries_with matchFn svals ps serials = [] ↔
      ∀ values ∈ svals, ∀ r ∈ chunks5 values,
        matchFn (pointer_to_serial r.1) (pointer_to_serial r.2.1)
          (pointer_to_serial r.2.2.1) (pointer_to_serial r.2.2.2.1)
          serials = false := by
  rw [dihedral_entries_with, List.flatMap_eq_nil_iff]
  refine forall_congr' fun values => forall_congr' fun hv => ?_
  rw [List.filterMap_eq_nil_iff]
  refine forall_congr' fun r => forall_congr' fun hr => ?_
  obtain ⟨ri, rj, rk, rl, rp⟩ := r
  by_cases hm : matchFn (pointer_to_serial ri) (pointer_to_serial rj)
      (pointer_to_serial rk) (pointer_to_serial rl) serials = true
  · simp [hm]
  · simp only [Bool.not_eq_true] at hm
    simp [hm]

/-- C4 (counterexample): the unordered fallback compares sorted serial
tuples (multisets), not sets.  The angle record with atoms `(1,1,2)` is
set-equal to the selection `[1,2,2]`, no ordered match exists anywhere, and
still the fallback yields no entry for it. -/
theorem angle_set_fallback_counterexample :
    extract_angle_params [[0, 0, 3, 1]] none none [1, 2, 2] = [] ∧
    list_set_eq [1, 1, 2] [1, 2, 2] = true ∧
    pointer_to_serial 0 = 1 ∧ pointer_to_serial 3 = 2 ∧
    match_triplet 1 1 2 [1, 2, 2] = false ∧
    match_triplet_unordered 1 1 2 [1, 2, 2] = false := by
  decide

/-- C4 (amended): a record matches the selected serials when its serial
tuple equals the selection exactly in forward or exactly in reverse order;
only when no record anywhere yields such an ordered match does angle and
dihedral matching fall back to unordered (sorted-tuple, i.e. multiset)
equality of the serials — which coincides with set equality whenever the
serials are distinct — and the records found by the fallback are then
included. -/
theorem angle_dihedral_match_fallback
    (svals : List (List Int)) (force equil : Option (List ℚ))
    (ps : DihedralFloatParams) (serials : List Int) :
    (∀ a b c : Int, match_triplet a b c serials = true ↔
      3 ≤ serials.length ∧
        (serials.take 3 = [a, b, c] ∨ serials.take 3 = [c, b, a])) ∧
    (∀ a b c d : Int, match_quad a b c d serials = true ↔
      4 ≤ serials.length ∧
        (serials.take 4 = [a, b, c, d] ∨ serials.take 4 = [d, c, b, a])) ∧
    (∀ a b c : Int, match_triplet_unordered a b c serials = true ↔
      3 ≤ serials.length ∧ List.Perm [a, b, c] (serials.take 3)) ∧
    (∀ a b c d : Int, match_quad_unordered a b c d serials = true ↔
      4 ≤ serials.length ∧ List.Perm [a, b, c, d] (serials.take 4)) ∧
    (3 ≤ serials.length →
      ((∃ values ∈ svals, ∃ r ∈ chunks4 values,
          match_triplet (pointer_to_serial r.1) (pointer_to_serial r.2.1)
            (pointer_to_serial r.2.2.1) serials = true) →
        extract_angle_params svals force equil serials =
          angle_entries_with match_triplet svals force equil serials) ∧
      ((∀ values ∈ svals, ∀ r ∈ chunks4 values,
          match_triplet (pointer_to_serial r.1) (pointer_to_serial r.2.1)
            (pointer_to_serial r.2.2.1) serials = false) →
        extract_angle_params svals force equil serials =
          angle_entries_with match_triplet_unordered svals force equil serials)) ∧
    (4 ≤ serials.length →
      ((∃ values ∈ svals, ∃ r ∈ chunks5 values,
          match_quad (pointer_to_serial r.1) (pointer_to_serial r.2.1)
            (pointer_to_serial r.2.2.1) (pointer_to_serial r.2.2.2.1)
            serials = true) →
        extract_dihedral_params svals ps serials =
          dihedral_entries_with match_quad svals ps serials) ∧
      ((∀ values ∈ svals, ∀ r ∈ chunks5 values,
          match_quad (pointer_to_serial r.1) (pointer_to_serial r.2.1)
            (pointer_to_serial r.2.2.1) (pointer_to_serial r.2.2.2.1)
            serials = false) →
        extract_dihedral_params svals ps serials =
          dihedral_entries_with match_quad_unordered svals ps serials)) := by
  refine ⟨fun a b c => match_triplet_iff a b c serials,
    fun a b c d => match_quad_iff a b c d serials,
    fun a b c => match_triplet_unordered_iff a b c serials,
    fun a b c d => match_quad_unordered_iff a b c d serials, ?_, ?_⟩
  · intro hlen
    have hnl : ¬ serials.length < 3 := Nat.not_lt.mpr hlen
    constructor
    · intro hex
      have hne : angle_entries_with match_triplet svals force equil serials ≠ [] := by
        rw [Ne, angle_entries_with_eq_nil]
        intro hall
        obtain ⟨values, hv, r, hr, hm⟩ := hex
        rw [hall values hv r hr] at hm
        exact Bool.false_ne_true hm
      rw [extract_angle_params, if_neg hnl,
        if_neg (by simpa [List.isEmpty_iff] using hne)]
    · intro hall
      have hnil : angle_entries_with match_triplet svals force equil serials = [] :=
        (angle_entries_with_eq_nil _ _ _ _ _).mpr hall
      rw [extract_angle_params, if_neg hnl, hnil]
      simp
  · intro hlen
    have hnl : ¬ serials.length < 4 := Nat.not_lt.mpr hlen
    constructor
    · intro hex
      have hne : dihedral_entries_with match_quad svals ps serials ≠ [] := by
        rw [Ne, dihedral_entries_with_eq_nil]
        intro hall
        obtain ⟨values, hv, r, hr, hm⟩ := hex
        rw [hall values hv r hr] at hm
        exact Bool.false_ne_true hm
      rw [extract_dihedral_params, if_neg hnl,
        if_neg (by simpa [List.isEmpty_iff] using hne)]
    · intro hall
      have hnil : dihedral_entries_with match_quad svals ps serials = [] :=
        (dihedral_entries_with_eq_nil _ _ _ _).mpr hall
      rw [extract_dihedral_params, if_neg hnl, hnil]
      simp

/-- C4 (witness): the fallback contract applied at concrete sections and
selections — the selection `[1,2,3]` matches the record `(1,2,3)` in order,
so the ordered pass is returned; the selection `[2,1,3]` matches no record
in order, so the unordered pass is returned. -/
theorem angle_dihedral_match_fallback_witness :
    extract_angle_params [[0, 3, 6, 2]] none none [1, 2, 3] =
      angle_entries_with match_triplet [[0, 3, 6, 2]] none none [1, 2, 3] ∧
    extract_angle_params [[0, 3, 6, 2]] none none [2, 1, 3] =
      angle_entries_with match_triplet_unordered [[0, 3, 6, 2]] none none
        [2, 1, 3] :=
  ⟨((angle_dihedral_match_fallback [[0, 3, 6, 2]] none none
      ⟨none, none, none, none, none⟩ [1, 2, 3]).2.2.2.2.1 (by decide)).1
      (by decide),
   ((angle_dihedral_match_fallback [[0, 3, 6, 2]] none none
      ⟨none, none, none, none, none⟩ [2, 1, 3]).2.2.2.2.1 (by decide)).2
      (by decide)⟩

theorem foldl_min_mem (xs : List Int) :
    ∀ a : Int, xs.foldl min a = a ∨ xs.foldl min a ∈ xs := by
  induction xs with
  | nil => intro a; simp
  | cons x xs ih =>
    intro a
    rcases ih (min a x) with h | h
    · rcases min_choice a x with hm | hm
      · left
        rw [List.foldl_cons, h, hm]
      · right
        rw [List.foldl_cons, h, hm]
        exact List.mem_cons_self x xs
    · right
      exact List.mem_cons_of_mem x (by rw [List.foldl_cons]; exact h)

theorem foldl_min_le (xs : List Int) :
    ∀ a y : Int, y = a ∨ y ∈ xs → xs.foldl min a ≤ y := by
  induction xs with
  | nil =>
    intro a y h
    rcases h with rfl | h
    · exact le_refl _
    · cases h
  | cons x xs ih =>
    intro a y h
    rw [List.foldl_cons]
    rcases h with heq | h
    · subst heq
      exact le_trans (ih (min y x) (min y x) (Or.inl rfl)) (min_le_left y x)
    · rcases List.mem_cons.mp h with heq | h
      · subst heq
        exact le_trans (ih (min a y) (min a y) (Or.inl rfl)) (min_le_right a y)
      · exact ih (min a x) y (Or.inr h)

theorem pyMin_spec (l : List Int) (m : Int) (h : pyMin l = some m) :
    m ∈ l ∧ ∀ y ∈ l, m ≤ y := by
  match l with
  | [] => simp [pyMin] at h
  | x :: xs =>
    simp only [pyMin, Option.some.injEq] at h
    subst h
    constructor
    · rcases foldl_min_mem xs x with h | h
      · rw [h]
        exact List.mem_cons_self x xs
      · exact List.mem_cons_of_mem x h
    · intro y hy
      rcases List.mem_cons.mp hy with heq | hy
      · subst heq
        exact foldl_min_le xs y y (Or.inl rfl)
      · exact foldl_min_le xs x y (Or.inr hy)

/-- C5: an inferred improper central atom is a member of the first four
selected serials that is bond-adjacent to every other member, and it is the
smallest member with that property; concretely, with atom 1 bonded to atoms
2, 3 and 4, every permutation of the quad `[1,2,3,4]` resolves to central
atom 1. -/
theorem improper_central_inference :
    (∀ (pairs : List (Int × Int)) (serials : List Int) (c : Int),
      infer_improper_central pairs serials = some c →
        c ∈ serials.take 4 ∧
        (∀ other ∈ serials.take 4, other ≠ c →
          (neighbors pairs c).contains other = true) ∧
        (∀ c2 ∈ serials.take 4,
          (∀ other ∈ serials.take 4, other ≠ c2 →
            (neighbors pairs c2).contains other = true) → c ≤ c2)) ∧
    (∀ s ∈ ([[1, 2, 3, 4], [1, 2, 4, 3], [1, 3, 2, 4], [1, 3, 4, 2],
       [1, 4, 2, 3], [1, 4, 3, 2], [2, 1, 3, 4], [2, 1, 4, 3],
       [2, 3, 1, 4], [2, 3, 4, 1], [2, 4, 1, 3], [2, 4, 3, 1],
       [3, 1, 2, 4], [3, 1, 4, 2], [3, 2, 1, 4], [3, 2, 4, 1],
       [3, 4, 1, 2], [3, 4, 2, 1], [4, 1, 2, 3], [4, 1, 3, 2],
       [4, 2, 1, 3], [4, 2, 3, 1], [4, 3, 1, 2], [4, 3, 2, 1]] : List (List Int)),
      infer_improper_central
        (adjacency_pairs [[0, 3, 1, 0, 6, 1, 0, 9, 1]]) s = some 1) := by
  constructor
  · intro pairs serials c h
    rw [infer_improper_central] at h
    by_cases h4 : serials.length < 4
    · simp [h4] at h
    · rw [if_neg h4] at h
      by_cases hp : pairs.isEmpty
      · simp [hp] at h
      · simp only [hp, Bool.false_eq_true, if_false] at h
        obtain ⟨hmem, hle⟩ := pyMin_spec _ _ h
        obtain ⟨hcmem, hcpred⟩ := List.mem_filter.mp hmem
        have hall := List.all_eq_true.mp hcpred
        refine ⟨hcmem, ?_, ?_⟩
        · intro other ho hne
          have := hall other ho
          simp only [Bool.or_eq_true, beq_iff_eq] at this
          rcases this with heq | hc
          · exact absurd heq hne
          · exact hc
        · intro c2 hc2 hprop
          refine hle c2 (List.mem_filter.mpr ⟨hc2, List.all_eq_true.mpr ?_⟩)
          intro other ho
          simp only [Bool.or_eq_true, beq_iff_eq]
          by_cases heq : other = c2
          · exact Or.inl heq
          · exact Or.inr (hprop other ho heq)
  · decide

/-- C5 (witness): the inference contract applied at a concrete adjacency
(atom 1 bonded to 2, 3, 4) and a concrete reordered quad. -/
theorem improper_central_inference_witness :
    (1 : Int) ∈ ([4, 2, 3, 1] : List Int).take 4 ∧
    infer_improper_central (adjacency_pairs [[0, 3, 1, 0, 6, 1, 0, 9, 1]])
      [2, 3, 4, 1] = some 1 :=
  ⟨(improper_central_inference.1 (adjacency_pairs [[0, 3, 1, 0, 6, 1, 0, 9, 1]])
      [4, 2, 3, 1] 1 (by decide)).1,
   improper_central_inference.2 [2, 3, 4, 1] (by decide)⟩

theorem accum_dihedral_step_one_four (atis : List Int) (acc : DihedralAccum)
    (t : Int) (r : Int × Int × Int × Int × Int) :
    ((accum_dihedral_step atis (acc, t) r).1).one_four =
      acc.one_four ++ (one_four_of_record atis r).toList ∧
    (accum_dihedral_step atis (acc, t) r).2 = t + 1 := by
  obtain ⟨ri, rj, rk, rl, rp⟩ := r
  simp only [accum_dihedral_step, one_four_of_record]
  by_cases hneg : rk < 0 ∨ rl < 0
  · simp [hneg]
  · simp only [if_neg hneg]
    rcases htl : type_index_lookup atis (pointer_to_serial ri) with _ | ti <;>
      rcases htl2 : type_index_lookup atis (pointer_to_serial rl) with _ | tl <;>
        simp [htl, htl2]

theorem accum_one_four_spec (atis : List Int)
    (l : List (Int × Int × Int × Int × Int)) :
    ∀ (acc : DihedralAccum) (t : Int),
      ((l.foldl (accum_dihedral_step atis) (acc, t)).1).one_four =
        acc.one_four ++ l.filterMap (one_four_of_record atis) := by
  induction l with
  | nil => intro acc t; simp
  | cons r l ih =>
    intro acc t
    rw [List.foldl_cons, List.filterMap_cons]
    have hstep := accum_dihedral_step_one_four atis acc t r
    rcases hst : accum_dihedral_step atis (acc, t) r with ⟨acc1, t1⟩
    rw [hst] at hstep
    have h1 : acc1.one_four = acc.one_four ++ (one_four_of_record atis r).toList :=
      hstep.1
    rw [ih acc1 t1, h1]
    rcases hfr : one_four_of_record atis r with _ | entry <;>
      simp [hfr, List.append_assoc]

theorem improper_of_record_shift (t : Int) (n : Nat)
    (r : Int × Int × Int × Int × Int) :
    improper_of_record t (n + 1, r) = improper_of_record (t + 1) (n, r) := by
  obtain ⟨ri, rj, rk, rl, rp⟩ := r
  simp only [improper_of_record]
  by_cases hneg : rl < 0
  · simp only [if_pos hneg, Option.some.injEq, Prod.mk.injEq, true_and]
    push_cast
    ring
  · simp [hneg]

theorem idx_filterMap_shift (t : Int) (l : List (Int × Int × Int × Int × Int)) :
    ∀ n : Nat, (idx_records (n + 1) l).filterMap (improper_of_record t) =
      (idx_records n l).filterMap (improper_of_record (t + 1)) := by
  induction l with
  | nil => intro n; simp [idx_records]
  | cons r l ih =>
    intro n
    simp only [idx_records, List.filterMap_cons, improper_of_record_shift, ih]

theorem improper_entries_spec (l : List (Int × Int × Int × Int × Int)) :
    ∀ (entries : List ((Int × Int × Int × Int) × Int × Int)) (t : Int),
      l.foldl improper_step (entries, t) =
        (entries ++ (idx_records 0 l).filterMap (improper_of_record t),
          t + (l.length : Int)) := by
  induction l with
  | nil => intro entries t; simp [idx_records]
  | cons r l ih =>
    intro entries t
    rw [List.foldl_cons]
    have hstep : improper_step (entries, t) r =
        (entries ++ (improper_of_record t (0, r)).toList, t + 1) := by
      obtain ⟨ri, rj, rk, rl, rp⟩ := r
      simp only [improper_step, improper_of_record]
      by_cases hneg : rl < 0 <;> simp [hneg]
    rw [hstep, ih]
    simp only [idx_records, List.filterMap_cons]
    have hshift := idx_filterMap_shift t l 0
    refine Prod.ext ?_ ?_
    · rcases hfr : improper_of_record t (0, r) with _ | entry <;>
        simp [hfr, List.append_assoc, ← hshift]
    · simp only [List.length_cons]
      push_cast
      ring

/-- C6: for every dihedral record `(i, j, k, l, p)` the decoded parameter
index is `abs(p)`; a record contributes a 1-4 pair (terminal serials,
sorted terminal types, `abs(p)`) exactly when neither its 3rd nor its 4th
raw field is negative (and the terminal type lookups succeed), so a
negative 3rd or 4th field generates no 1-4 pair; a negative 4th field is
exactly the membership criterion for the improper table, whose entries
carry `abs(p)`.  The highlight-side 1-4 extractor obeys the same sign
rule. -/
theorem dihedral_sign_decoding
    (values atis : List Int) (acc : DihedralAccum) (t : Int)
    (svals : List (List Int)) (scee scnb : Option (List ℚ))
    (serials : List Int) :
    (((accumulate_dihedral_records values atis t acc).1).one_four =
      acc.one_four ++ (chunks5 values).filterMap (one_four_of_record atis)) ∧
    (∀ r : Int × Int × Int × Int × Int, r.2.2.1 < 0 ∨ r.2.2.2.1 < 0 →
      one_four_of_record atis r = none) ∧
    (∀ (r : Int × Int × Int × Int × Int) key pair,
      one_four_of_record atis r = some (key, pair) →
        0 ≤ r.2.2.1 ∧ 0 ≤ r.2.2.2.1 ∧
        key.2.2 = (r.2.2.2.2.natAbs : Int) ∧
        pair = (pointer_to_serial r.1, pointer_to_serial r.2.2.2.1)) ∧
    (improper_entries values t =
      ((idx_records 0 (chunks5 values)).filterMap (improper_of_record t),
        t + ((chunks5 values).length : Int))) ∧
    (∀ (n : Nat) (r : Int × Int × Int × Int × Int),
      (improper_of_record t (n, r)).isSome = true ↔ r.2.2.2.1 < 0) ∧
    (∀ (n : Nat) (r : Int × Int × Int × Int × Int) entry,
      improper_of_record t (n, r) = some entry →
        entry.2.1 = (r.2.2.2.2.natAbs : Int)) ∧
    (∀ entry ∈ extract_14_params svals scee scnb serials,
      ∃ values2 ∈ svals, ∃ r ∈ chunks5 values2,
        0 ≤ r.2.2.1 ∧ 0 ≤ r.2.2.2.1 ∧
        entry.param_index = (r.2.2.2.2.natAbs : Int) ∧
        entry.serials = [pointer_to_serial r.1,
          pointer_to_serial r.2.2.2.1]) := by
  refine ⟨accum_one_four_spec atis (chunks5 values) acc t, ?_, ?_,
    improper_entries_spec (chunks5 values) [] t, ?_, ?_, ?_⟩
  · intro r hneg
    obtain ⟨ri, rj, rk, rl, rp⟩ := r
    dsimp only at hneg
    simp only [one_four_of_record]
    rw [if_pos hneg]
  · intro r key pair h
    obtain ⟨ri, rj, rk, rl, rp⟩ := r
    dsimp only
    simp only [one_four_of_record] at h
    by_cases hneg : rk < 0 ∨ rl < 0
    · simp [hneg] at h
    · simp only [if_neg hneg] at h
      rcases htl : type_index_lookup atis (pointer_to_serial ri) with _ | ti <;>
        rcases htl2 : type_index_lookup atis (pointer_to_serial rl) with _ | tl <;>
          rw [htl, htl2] at h <;> simp only at h
      · cases h
      · cases h
      · cases h
      · simp only [Option.some.injEq, Prod.mk.injEq] at h
        obtain ⟨hk, hp⟩ := h
        refine ⟨by omega, by omega, ?_, hp.symm⟩
        rw [← hk]
  · intro n r
    obtain ⟨ri, rj, rk, rl, rp⟩ := r
    simp only [improper_of_record]
    by_cases hneg : rl < 0 <;> simp [hneg]
  · intro n r entry h
    obtain ⟨ri, rj, rk, rl, rp⟩ := r
    simp only [improper_of_record] at h
    by_cases hneg : rl < 0
    · rw [if_pos hneg] at h
      cases h
      rfl
    · simp [hneg] at h
  · intro entry hentry
    rw [extract_14_params] at hentry
    by_cases hlen : serials.length < 2
    · simp [hlen] at hentry
    · rw [if_neg hlen] at hentry
      simp only [List.mem_flatMap] at hentry
      obtain ⟨values2, hv, hmem⟩ := hentry
      refine ⟨values2, hv, ?_⟩
      simp only [List.mem_filterMap] at hmem
      obtain ⟨r, hr, hfr⟩ := hmem
      refine ⟨r, hr, ?_⟩
      obtain ⟨ri, rj, rk, rl, rp⟩ := r
      simp only at hfr
      by_cases hneg : rk < 0 ∨ rl < 0
      · simp [hneg] at hfr
      · rw [if_neg hneg] at hfr
        simp only [Option.ite_none_right_eq_some, Option.some.injEq] at hfr
        obtain ⟨hset, hentry⟩ := hfr
        subst hentry
        dsimp only
        refine ⟨by omega, by omega, ?_, rfl⟩
        simp [Int.natCast_natAbs]

/-- C6 (witness): the sign rules applied at concrete records — the record
`(0, 3, 6, -9, 2)` (negative 4th field) generates no 1-4 pair and is an
improper-table member; the record `(0, 3, 6, 9, 2)` generates the 1-4 pair
with parameter index `|2|`. -/
theorem dihedral_sign_decoding_witness :
    one_four_of_record [1, 1, 1, 1] (0, 3, 6, -9, 2) = none ∧
    (improper_of_record 1 (0, (0, 3, 6, -9, 2))).isSome = true ∧
    (0 ≤ (6 : Int) ∧ 0 ≤ (9 : Int) ∧
      ((1, 1, (2 : Int)) : Int × Int × Int).2.2 = ((2 : Int).natAbs : Int) ∧
      ((1, 4) : Int × Int) = (pointer_to_serial 0, pointer_to_serial 9)) :=
  ⟨(dihedral_sign_decoding [] [1, 1, 1, 1] ⟨[], []⟩ 0 [] none none []).2.1
      (0, 3, 6, -9, 2) (Or.inr (by decide)),
   ((dihedral_sign_decoding [] [1, 1, 1, 1] ⟨[], []⟩ 1 [] none none []).2.2.2.2.1
      0 (0, 3, 6, -9, 2)).mpr (by decide),
   (dihedral_sign_decoding [] [1, 1, 1, 1] ⟨[], []⟩ 0 [] none none []).2.2.1
      (0, 3, 6, 9, 2) (1, 1, 2) (1, 4) (by decide)⟩

theorem sorted_pair_le (a b : Int) : (sorted_pair a b).1 ≤ (sorted_pair a b).2 := by
  rw [sorted_pair]
  split <;> simp <;> omega

theorem sorted_pair_eq_min_max (a b : Int) :
    sorted_pair a b = (min a b, max a b) := by
  rw [sorted_pair]
  split <;> rw [min_def, max_def] <;> simp_all <;> omega

theorem group_counts_mem {K : Type} [DecidableEq K] (keys : List K)
    (e : K × Nat) :
    e ∈ group_counts keys ↔ e.1 ∈ keys ∧ e.2 = keys.count e.1 := by
  simp only [group_counts, List.mem_map]
  constructor
  · rintro ⟨k, hk, rfl⟩
    exact ⟨List.mem_dedup.mp hk, rfl⟩
  · rintro ⟨h1, h2⟩
    exact ⟨e.1, List.mem_dedup.mpr h1, Prod.ext rfl h2.symm⟩

theorem bond_rows_canonical (atis : List Int) (bondSections : List (List Int)) :
    ∀ row ∈ bond_table_rows atis bondSections, row.1 ≤ row.2.1 := by
  intro row hrow
  simp only [bond_table_rows, List.mem_flatMap, List.mem_map] at hrow
  obtain ⟨values, hv, r, hr, hrfl⟩ := hrow
  obtain ⟨ra, rb, rp⟩ := r
  subst hrfl
  exact sorted_pair_le _ _

theorem angle_rows_canonical (atis : List Int)
    (angleSections : List (List Int)) :
    ∀ row ∈ angle_table_rows atis angleSections, row.1 ≤ row.2.2.1 := by
  intro row hrow
  simp only [angle_table_rows, List.mem_flatMap, List.mem_map] at hrow
  obtain ⟨values, hv, r, hr, hrfl⟩ := hrow
  obtain ⟨ri, rj, rk, rp⟩ := r
  subst hrfl
  exact sorted_pair_le _ _

theorem one_four_rows_canonical (atis : List Int)
    (dihSections : List (List Int)) :
    ∀ row ∈ one_four_table_rows atis dihSections, row.1 ≤ row.2.1 := by
  intro row hrow
  simp only [one_four_table_rows, List.mem_flatMap, List.mem_filterMap] at hrow
  obtain ⟨values, hv, r, hr, hfr⟩ := hrow
  obtain ⟨ri, rj, rk, rl, rp⟩ := r
  simp only at hfr
  by_cases hneg : rk < 0 ∨ rl < 0
  · simp [hneg] at hfr
  · rw [if_neg hneg] at hfr
    injection hfr with h
    subst h
    exact sorted_pair_le _ _

/-- C7: every bond-table key and every 1-4 nonbonded key (both the
`_build_one_four_table` grouping keys and the selection-index
`one_four_by_key` keys) has its two endpoint type indices sorted ascending,
and every angle-table key has its two terminal types sorted ascending with
the middle type kept fixed: each record appears under `(min, max, |p|)`
(bonds and 1-4) and `(min(t_i,t_k), t_j, max(t_i,t_k), |p|)` (angles),
grouped with multiplicities; in particular a bond record with
`type_a = 3, type_b = 1` appears in the bond-type table under
`(type_a = 1, type_b = 3)`. -/
theorem type_tuple_canonicalization (atis : List Int)
    (bondSections angleSections dihSections : List (List Int)) :
    (∀ row ∈ bond_table_rows atis bondSections, row.1 ≤ row.2.1) ∧
    (∀ e ∈ bond_type_table atis bondSections,
      e.1.1 ≤ e.1.2.1 ∧ e.1 ∈ bond_table_rows atis bondSections ∧
        e.2 = countOcc (bond_table_rows atis bondSections) e.1) ∧
    (∀ values ∈ bondSections, ∀ r ∈ chunks3 values,
      (min (atis.getD (pointer_to_serial r.1 - 1).toNat 0)
          (atis.getD (pointer_to_serial r.2.1 - 1).toNat 0),
        max (atis.getD (pointer_to_serial r.1 - 1).toNat 0)
          (atis.getD (pointer_to_serial r.2.1 - 1).toNat 0),
        (r.2.2.natAbs : Int)) ∈ bond_table_rows atis bondSections) ∧
    (∀ row ∈ one_four_table_rows atis dihSections, row.1 ≤ row.2.1) ∧
    (∀ e ∈ one_four_type_table atis dihSections,
      e.1.1 ≤ e.1.2.1 ∧ e.1 ∈ one_four_table_rows atis dihSections ∧
        e.2 = countOcc (one_four_table_rows atis dihSections) e.1) ∧
    (∀ values ∈ dihSections, ∀ r ∈ chunks5 values,
      0 ≤ r.2.2.1 → 0 ≤ r.2.2.2.1 →
      (min (atis.getD (pointer_to_serial r.1 - 1).toNat 0)
          (atis.getD (pointer_to_serial r.2.2.2.1 - 1).toNat 0),
        max (atis.getD (pointer_to_serial r.1 - 1).toNat 0)
          (atis.getD (pointer_to_serial r.2.2.2.1 - 1).toNat 0),
        (r.2.2.2.2.natAbs : Int)) ∈ one_four_table_rows atis dihSections) ∧
    (∀ (r : Int × Int × Int × Int × Int) key pair,
      one_four_of_record atis r = some (key, pair) → key.1 ≤ key.2.1) ∧
    (∀ row ∈ angle_table_rows atis angleSections, row.1 ≤ row.2.2.1) ∧
    (∀ e ∈ angle_type_table atis angleSections,
      e.1.1 ≤ e.1.2.2.1 ∧ e.1 ∈ angle_table_rows atis angleSections ∧
        e.2 = countOcc (angle_table_rows atis angleSections) e.1) ∧
    (∀ values ∈ angleSections, ∀ r ∈ chunks4 values,
      (min (atis.getD (pointer_to_serial r.1 - 1).toNat 0)
          (atis.getD (pointer_to_serial r.2.2.1 - 1).toNat 0),
        atis.getD (pointer_to_serial r.2.1 - 1).toNat 0,
        max (atis.getD (pointer_to_serial r.1 - 1).toNat 0)
          (atis.getD (pointer_to_serial r.2.2.1 - 1).toNat 0),
        (r.2.2.2.natAbs : Int)) ∈ angle_table_rows atis angleSections) ∧
    ((1, 3, 1), 1) ∈ bond_type_table [3, 1] [[0, 3, 1]] ∧
    bond_table_rows [3, 1] [[0, 3, 1]] = [(1, 3, 1)] ∧
    one_four_type_table [3, 1] [[0, 0, 0, 3, 1]] = [((1, 3, 1), 1)] ∧
    angle_type_table [3, 2, 1] [[0, 3, 6, 4]] = [((1, 2, 3, 4), 1)] := by
  refine ⟨bond_rows_canonical atis bondSections, ?_, ?_,
    one_four_rows_canonical atis dihSections, ?_, ?_, ?_,
    angle_rows_canonical atis angleSections, ?_, ?_, by decide, by decide,
    by decide, by decide⟩
  · intro e he
    obtain ⟨h1, h2⟩ := (group_counts_mem _ e).mp he
    exact ⟨bond_rows_canonical atis bondSections e.1 h1, h1, h2⟩
  · intro values hv r hr
    simp only [bond_table_rows, List.mem_flatMap, List.mem_map]
    refine ⟨values, hv, r, hr, ?_⟩
    obtain ⟨ra, rb, rp⟩ := r
    dsimp only
    rw [sorted_pair_eq_min_max]
  · intro e he
    obtain ⟨h1, h2⟩ := (group_counts_mem _ e).mp he
    exact ⟨one_four_rows_canonical atis dihSections e.1 h1, h1, h2⟩
  · intro values hv r hr hk hl
    simp only [one_four_table_rows, List.mem_flatMap, List.mem_filterMap]
    refine ⟨values, hv, r, hr, ?_⟩
    obtain ⟨ri, rj, rk, rl, rp⟩ := r
    dsimp only at hk hl ⊢
    rw [if_neg (by omega), sorted_pair_eq_min_max]
  · intro r key pair h
    obtain ⟨ri, rj, rk, rl, rp⟩ := r
    simp only [one_four_of_record] at h
    by_cases hneg : rk < 0 ∨ rl < 0
    · simp [hneg] at h
    · rw [if_neg hneg] at h
      rcases htl : type_index_lookup atis (pointer_to_serial ri) with _ | ti <;>
        rcases htl2 : type_index_lookup atis (pointer_to_serial rl) with _ | tl <;>
          rw [htl, htl2] at h <;> simp only at h
      · cases h
      · cases h
      · cases h
      · simp only [Option.some.injEq, Prod.mk.injEq] at h
        obtain ⟨hk, hp⟩ := h
        rw [← hk]
        exact sorted_pair_le ti tl
  · intro e he
    obtain ⟨h1, h2⟩ := (group_counts_mem _ e).mp he
    exact ⟨angle_rows_canonical atis angleSections e.1 h1, h1, h2⟩
  · intro values hv r hr
    simp only [angle_table_rows, List.mem_flatMap, List.mem_map]
    refine ⟨values, hv, r, hr, ?_⟩
    obtain ⟨ri, rj, rk, rp⟩ := r
    dsimp only
    rw [sorted_pair_eq_min_max]

/-- C7 (witness): the canonical-ordering facts applied at the concrete bond
record with types `(3, 1)` and at a concrete 1-4 record with types
`(5, 2)`. -/
theorem type_tuple_canonicalization_witness :
    ((1, 3, 1) : Int × Int × Int).1 ≤ ((1, 3, 1) : Int × Int × Int).2.1 ∧
    ((2, 5, 7) : Int × Int × Int).1 ≤ ((2, 5, 7) : Int × Int × Int).2.1 :=
  ⟨(type_tuple_canonicalization [3, 1] [[0, 3, 1]] [] []).1 (1, 3, 1)
      (by decide),
   (type_tuple_canonicalization [5, 2] [] [] []).2.2.2.2.2.2.1
      (0, 0, 0, 3, 7) (2, 5, 7) (1, 2) (by decide)⟩

end Topview
